import Mathlib

/-!
Project-Tracker: access control of the Express backend.

A shallow embedding of `index.js`, the Express server: its two middlewares, the
API routes they guard, the login and register routes, and the datastore
requests those routes make; and of three functions of the browser code in
`public/js/dashboard.js`.

* Identifiers (uuids) and timestamps are strings, as they are in the JavaScript.
* `req.user` is the users row that passport stored in the session;
  `req.isAuthenticated()` is passport's test that `req.user` is set.
* The datastore (Supabase) is a record of four tables.  A handler talks to it
  through numbered requests: `Env.fails n` says that the `n`-th request of the
  running handler is answered `{ data: null, error }`.
* A handler returns an `Outcome`: the response it sent (if any), the datastore
  after it, and the log of the datastore requests it awaited.
* The nested expansions of a select (`created_by_user:users!created_by(...)`)
  and the `order` clause do not change which rows are answered; the answer of a
  select is the list of matching rows in table order.
-/

namespace ProjectTracker

/-! ## Data model -/

abbrev Id := String

/-- A row of `users`; also the value of `req.user`.  The column `password`
holds the digest and may be `null`. -/
structure User where
  id : Id
  email : String
  password : Option String
  role : Option String
  status : Option String
deriving DecidableEq, Repr

/-- A row of `projects`. -/
structure Project where
  id : Id
  name : Option String
  description : Option String
  status : Option String
  priority : Option String
  deadline : Option String
  start_date : Option String
  end_date : Option String
  created_by : Option Id
  updated_at : Option String
deriving DecidableEq, Repr

/-- A row of `project_members`. -/
structure Membership where
  id : Id
  project_id : Id
  user_id : Id
  role : String
deriving DecidableEq, Repr

/-- A row of `tasks`. -/
structure Task where
  id : Id
  title : Option String
  description : Option String
  project_id : Option Id
  assigned_to : Option Id
  created_by : Option Id
  status : Option String
  priority : Option String
  due_date : Option String
  completed_at : Option String
  updated_at : Option String
deriving DecidableEq, Repr

/-- The four tables of the datastore. -/
structure Datastore where
  users : List User
  projects : List Project
  project_members : List Membership
  tasks : List Task
deriving DecidableEq, Repr

/-- A property of a JSON object: left out (`undefined`), `null`, or a value. -/
inductive Field (α : Type) where
  | absent : Field α
  | null : Field α
  | val (a : α) : Field α
deriving DecidableEq, Repr

/-- The fields of `req.body` that the task and project routes destructure. -/
structure Body where
  title : Field String := .absent
  description : Field String := .absent
  status : Field String := .absent
  priority : Field String := .absent
  assigned_to : Field String := .absent
  due_date : Field String := .absent
  project_id : Field String := .absent
  name : Field String := .absent
  deadline : Field String := .absent
  start_date : Field String := .absent
  end_date : Field String := .absent
deriving DecidableEq, Repr

/-- The query-string parameters read by `GET /api/tasks`. -/
structure TaskQuery where
  project_id : Option String := none
  status : Option String := none
  assigned_to : Option String := none
deriving DecidableEq, Repr

/-- An incoming request. -/
structure Req where
  user : Option User
  id : Id := ""
  query : TaskQuery := {}
  body : Body := {}
deriving DecidableEq, Repr

/-- What the process sees besides the request and the datastore. -/
structure Env where
  fails : Nat → Bool
  now : String
  newId : Nat → Id

/-! ## Datastore requests -/

/-- Filters put on a `projects` query. -/
inductive ProjectFilter where
  | eqId (id : Id)
  | inId (ids : List Id)
deriving DecidableEq, Repr

/-- Filters put on a `project_members` query. -/
inductive MemberFilter where
  | eqUserId (uid : Id)
  | eqProjectId (pid : Id)
deriving DecidableEq, Repr

/-- Filters put on a `tasks` query. -/
inductive TaskFilter where
  | eqId (id : Id)
  | eqProjectId (v : String)
  | eqStatus (v : String)
  | eqAssignedTo (v : String)
  | inProjectId (ids : List Id)
deriving DecidableEq, Repr

/-- The object passed to `.update(...)` on `tasks`, after `JSON.stringify` has
dropped the `undefined` properties: `none` is a column that is not written,
`some none` writes `null`, `some (some v)` writes `v`. -/
structure TaskPatch where
  title : Option (Option String)
  description : Option (Option String)
  status : Option (Option String)
  priority : Option (Option String)
  assigned_to : Option (Option String)
  due_date : Option (Option String)
  updated_at : Option (Option String)
  completed_at : Option (Option String)
deriving DecidableEq, Repr

/-- The object passed to `.update(...)` on `projects`; every property is
always defined there, so every column listed is written. -/
structure ProjectPatch where
  name : Option String
  description : Option String
  status : Option String
  start_date : Option String
  end_date : Option String
  updated_at : Option String
deriving DecidableEq, Repr

/-- A request that a handler awaited on the datastore. -/
inductive Call where
  | selectProjects (filters : List ProjectFilter)
  | selectProjectMembers (filters : List MemberFilter)
  | selectTasks (filters : List TaskFilter)
  | selectUsers
  | insertProject (row : Project)
  | insertProjectMember (row : Membership)
  | insertTask (row : Task)
  | updateTask (filters : List TaskFilter) (patch : TaskPatch)
  | updateProject (filters : List ProjectFilter) (patch : ProjectPatch)
  | selectUsersByEmail (email : String)
  | insertUser (row : User)
deriving DecidableEq, Repr

/-- The `{ data, error }` pair every datastore request resolves to. -/
structure Result (α : Type) where
  data : Option α
  error : Bool
deriving DecidableEq, Repr

def ProjectFilter.holds (p : Project) : ProjectFilter → Bool
  | .eqId id => p.id == id
  | .inId ids => ids.contains p.id

def MemberFilter.holds (m : Membership) : MemberFilter → Bool
  | .eqUserId uid => m.user_id == uid
  | .eqProjectId pid => m.project_id == pid

def TaskFilter.holds (t : Task) : TaskFilter → Bool
  | .eqId id => t.id == id
  | .eqProjectId v => t.project_id == some v
  | .eqStatus v => t.status == some v
  | .eqAssignedTo v => t.assigned_to == some v
  | .inProjectId ids =>
    match t.project_id with
    | some pid => ids.contains pid
    | none => false

/-- Rows of `projects` that pass every filter. -/
def Datastore.matchProjects (db : Datastore) (fs : List ProjectFilter) : List Project :=
  db.projects.filter (fun p => fs.all (fun f => f.holds p))

/-- Rows of `project_members` that pass every filter. -/
def Datastore.matchMembers (db : Datastore) (fs : List MemberFilter) : List Membership :=
  db.project_members.filter (fun m => fs.all (fun f => f.holds m))

/-- Rows of `tasks` that pass every filter. -/
def Datastore.matchTasks (db : Datastore) (fs : List TaskFilter) : List Task :=
  db.tasks.filter (fun t => fs.all (fun f => f.holds t))

/-- Awaiting a select: the matching rows, or `{ data: null, error }` when the
request fails. -/
def awaitRows {α : Type} (failed : Bool) (rows : List α) : Result (List α) :=
  if failed then { data := none, error := true } else { data := some rows, error := false }

/-- The `.single()` modifier: exactly one row is answered as that row, anything
else as `{ data: null, error }`. -/
def awaitSingle {α : Type} (failed : Bool) (rows : List α) : Result α :=
  if failed then { data := none, error := true }
  else match rows with
    | [r] => { data := some r, error := false }
    | _ => { data := none, error := true }

/-- The primary key of `projects`: no two rows share an id. -/
abbrev Datastore.projectIdsUnique (db : Datastore) : Prop :=
  db.projects.Pairwise (fun a b => a.id ≠ b.id)

/-- The constraint `unique: "(project_id, user_id)"` that `DATABASE_SCHEMA`
declares for `project_members`. -/
abbrev Datastore.membershipUnique (db : Datastore) : Prop :=
  db.project_members.Pairwise
    (fun a b => ¬ (a.project_id = b.project_id ∧ a.user_id = b.user_id))

/-! ## Responses -/

/-- The columns of a users row that `GET /api/users` selects. -/
structure UserInfo where
  id : Id
  email : String
  role : Option String
  status : Option String
deriving DecidableEq, Repr

/-- The object that `GET /api/user` answers, also the client's
`auth.currentUser`. -/
structure CurrentUser where
  id : Id
  email : String
  role : String
  status : String
deriving DecidableEq, Repr

/-- The numbers that `GET /api/dashboard/stats` answers; the nested legacy
object repeats the first six and adds the last four. -/
structure Stats where
  projectCount : Nat
  activeProjects : Nat
  completedProjects : Nat
  taskCount : Nat
  userTaskCount : Nat
  overdueTaskCount : Nat
  onHold : Nat
  completed : Nat
  inProgress : Nat
  pending : Nat
deriving DecidableEq, Repr

/-- The payload of a response. -/
inductive Payload where
  | error (msg : String)
  | projects (ps : List Project)
  | project (p : Project)
  | tasks (ts : List Task)
  | task (t : Task)
  | users (us : List UserInfo)
  | null
  | currentUser (u : CurrentUser)
  | members (ms : List Membership)
  | stats (s : Stats)
deriving DecidableEq, Repr

/-- A JSON response: `res.status(code).json(payload)`. -/
structure Response where
  status : Nat
  payload : Payload
deriving DecidableEq, Repr

/-- What a handler did. -/
structure Outcome where
  response : Option Response
  db : Datastore
  log : List Call
deriving DecidableEq, Repr

/-- What a middleware did: called `next`, or answered itself. -/
inductive Verdict where
  | next
  | respond (r : Response)
deriving DecidableEq, Repr

/-! ## Middleware (`index.js` lines 46-67) -/

/-- The test `req.isAuthenticated()`. -/
def Req.isAuthenticated (req : Req) : Bool := req.user.isSome

/-- The expression `req.user.role || "member"`. -/
def User.roleOrMember (u : User) : String :=
  match u.role with
  | some r => if r = "" then "member" else r
  | none => "member"

/-- The test `req.user.role !== "admin"`. -/
def User.notAdmin (u : User) : Bool := u.role != some "admin"

def requireAuth (req : Req) : Verdict :=
  if req.isAuthenticated then .next
  else .respond { status := 401, payload := .error "Authentication required" }

def requireRole (roles : List String) (req : Req) : Verdict :=
  match req.user with
  | none => .respond { status := 401, payload := .error "Authentication required" }
  | some u =>
    if !roles.contains u.roleOrMember then
      .respond { status := 403, payload := .error "Insufficient permissions" }
    else .next

abbrev Handler := Env → Datastore → Req → Outcome

/-- Express runs the middlewares of a route in order; the handler runs only
when each of them called `next`. -/
def runRoute (mws : List (Req → Verdict)) (h : Handler) (env : Env) (db : Datastore)
    (req : Req) : Outcome :=
  match mws with
  | [] => h env db req
  | mw :: rest =>
    match mw req with
    | .next => runRoute rest h env db req
    | .respond r => { response := some r, db := db, log := [] }

/-- The body of the `catch` blocks of the API routes. -/
def internalError (db : Datastore) (log : List Call) : Outcome :=
  { response := some { status := 500, payload := .error "Internal server error" },
    db := db, log := log }

/-- A response sent with `res.json(...)` or `res.status(code).json(...)`. -/
def reply (status : Nat) (payload : Payload) (db : Datastore) (log : List Call) : Outcome :=
  { response := some { status := status, payload := payload }, db := db, log := log }

/-- JavaScript truthiness of a query-string parameter. -/
def truthy : Option String → Option String
  | some s => if s = "" then none else some s
  | none => none

/-- The list `userProjects?.map((p) => p.project_id) || []`. -/
def projectIdsOf (userProjects : Result (List Membership)) : List Id :=
  match userProjects.data with
  | some rows => rows.map (fun p => p.project_id)
  | none => []

/-- The membership lookup of lines 100-103 and 190-193. -/
def membershipLookup (u : User) : List MemberFilter := [MemberFilter.eqUserId u.id]

/-- The list `projectIds` of lines 105 and 195 when the lookup is answered. -/
def Datastore.memberProjectIds (db : Datastore) (u : User) : List Id :=
  projectIdsOf (awaitRows false (db.matchMembers (membershipLookup u)))

/-! ## `GET /api/projects` (lines 85-125) -/

/-- Lines 113-120: the projects query is awaited and answered. -/
def awaitProjectsQuery (env : Env) (db : Datastore) (n : Nat) (log : List Call)
    (fs : List ProjectFilter) : Outcome :=
  let r := awaitRows (env.fails n) (db.matchProjects fs)
  let log := log ++ [Call.selectProjects fs]
  if r.error then reply 500 (.error "Failed to fetch projects") db log
  else reply 200 (.projects (r.data.getD [])) db log

def getProjects : Handler := fun env db req =>
  match req.user with
  | none => internalError db []
  | some u =>
    if u.notAdmin then
      let lookup := membershipLookup u
      let userProjects := awaitRows (env.fails 0) (db.matchMembers lookup)
      let projectIds := projectIdsOf userProjects
      if projectIds.length > 0 then
        awaitProjectsQuery env db 1 [Call.selectProjectMembers lookup] [.inId projectIds]
      else
        reply 200 (.projects []) db [Call.selectProjectMembers lookup]
    else
      awaitProjectsQuery env db 0 [] []

/-! ## `GET /api/tasks` (lines 171-217) -/

/-- Lines 183-186: the filters taken from the query string. -/
def callerFilters (q : TaskQuery) : List TaskFilter :=
  (match truthy q.project_id with | some v => [TaskFilter.eqProjectId v] | none => []) ++
  (match truthy q.status with | some v => [TaskFilter.eqStatus v] | none => []) ++
  (match truthy q.assigned_to with | some v => [TaskFilter.eqAssignedTo v] | none => [])

/-- Lines 203-212: the tasks query is awaited and answered. -/
def awaitTasksQuery (env : Env) (db : Datastore) (n : Nat) (log : List Call)
    (fs : List TaskFilter) : Outcome :=
  let r := awaitRows (env.fails n) (db.matchTasks fs)
  let log := log ++ [Call.selectTasks fs]
  if r.error then reply 500 (.error "Failed to fetch tasks") db log
  else reply 200 (.tasks (r.data.getD [])) db log

def getTasks : Handler := fun env db req =>
  let fs := callerFilters req.query
  match req.user with
  | none => internalError db []
  | some u =>
    if u.notAdmin then
      let lookup := membershipLookup u
      let userProjects := awaitRows (env.fails 0) (db.matchMembers lookup)
      let projectIds := projectIdsOf userProjects
      if projectIds.length > 0 then
        awaitTasksQuery env db 1 [Call.selectProjectMembers lookup]
          (fs ++ [.inProjectId projectIds])
      else
        reply 200 (.tasks []) db [Call.selectProjectMembers lookup]
    else
      awaitTasksQuery env db 0 [] fs

/-! ## `PUT /api/tasks/:id` (lines 266-314) -/

/-- What `JSON.stringify` makes of a property of the update object. -/
def Field.toPatch : Field String → Option (Option String)
  | .absent => none
  | .null => some none
  | .val a => some (some a)

/-- Lines 273-288: the object handed to `.update(...)`. -/
def updateData (env : Env) (b : Body) : TaskPatch :=
  { title := b.title.toPatch
    description := b.description.toPatch
    status := b.status.toPatch
    priority := b.priority.toPatch
    assigned_to := b.assigned_to.toPatch
    due_date := b.due_date.toPatch
    updated_at := some (some env.now)
    completed_at :=
      if b.status = .val "completed" then some (some env.now)
      else if b.status ≠ .val "completed" then some none
      else none }

/-- The row after the columns present in the patch have been written. -/
def TaskPatch.apply (p : TaskPatch) (t : Task) : Task :=
  { t with
    title := p.title.getD t.title
    description := p.description.getD t.description
    status := p.status.getD t.status
    priority := p.priority.getD t.priority
    assigned_to := p.assigned_to.getD t.assigned_to
    due_date := p.due_date.getD t.due_date
    updated_at := p.updated_at.getD t.updated_at
    completed_at := p.completed_at.getD t.completed_at }

/-- The statement `update(...).eq(...).select(...).single()` on `tasks`: the answer and the
datastore after it.  A request that is answered with an error writes nothing. -/
def Datastore.updateTask (db : Datastore) (failed : Bool) (fs : List TaskFilter)
    (patch : TaskPatch) : Result Task × Datastore :=
  let r := awaitSingle failed ((db.matchTasks fs).map patch.apply)
  let written := db.tasks.map
    (fun t => if fs.all (fun f => f.holds t) then patch.apply t else t)
  (r, if r.error then db else { db with tasks := written })

def putTask : Handler := fun env db req =>
  let patch := updateData env req.body
  let fs := [TaskFilter.eqId req.id]
  let (r, db1) := db.updateTask (env.fails 0) fs patch
  if r.error then reply 500 (.error "Failed to update task") db1 [Call.updateTask fs patch]
  else
    match r.data with
    | some updatedTask => reply 200 (.task updatedTask) db1 [Call.updateTask fs patch]
    | none => reply 200 .null db1 [Call.updateTask fs patch]

/-- The invariant that links `completed_at` to `status`. -/
abbrev Task.completedAtMatchesStatus (t : Task) : Prop :=
  t.completed_at.isSome = true ↔ t.status = some "completed"

/-! ## `GET /api/users` (lines 316-334) -/

def User.info (u : User) : UserInfo :=
  { id := u.id, email := u.email, role := u.role, status := u.status }

def getUsers : Handler := fun env db _ =>
  let r := awaitRows (env.fails 0) db.users
  if r.error then reply 500 (.error "Failed to fetch users") db [Call.selectUsers]
  else reply 200 (.users ((r.data.getD []).map User.info)) db [Call.selectUsers]

/-! ## `GET /api/projects/:id` (lines 336-381) -/

/-- The call `res.json(project)`. -/
def projectPayload : Option Project → Payload
  | some p => .project p
  | none => .null

def getProjectById : Handler := fun env db req =>
  let pf := [ProjectFilter.eqId req.id]
  let r := awaitSingle (env.fails 0) (db.matchProjects pf)
  if r.error then reply 404 (.error "Project not found") db [Call.selectProjects pf]
  else
    match req.user with
    | none => internalError db [Call.selectProjects pf]
    | some u =>
      if u.notAdmin then
        let mf := [MemberFilter.eqProjectId req.id, MemberFilter.eqUserId u.id]
        let userProject := awaitSingle (env.fails 1) (db.matchMembers mf)
        if userProject.data.isNone then
          reply 403 (.error "Access denied") db
            [Call.selectProjects pf, Call.selectProjectMembers mf]
        else
          reply 200 (projectPayload r.data) db
            [Call.selectProjects pf, Call.selectProjectMembers mf]
      else
        reply 200 (projectPayload r.data) db [Call.selectProjects pf]

/-! ## The routes guarded by `requireRole(["admin", "manager"])` -/

/-- A property given to `.insert(...)`: `undefined` and `null` both leave the
column `null` (no listed column of these inserts has another default). -/
def Field.toOption {α : Type} : Field α → Option α
  | .val a => some a
  | _ => none

/-- The destructuring default `priority = "medium"`. -/
def priorityOrMedium : Field String → Option String
  | .absent => some "medium"
  | .null => none
  | .val a => some a

/-- Lines 135-147: the row of the project insert; `status` takes the column
default of `DATABASE_SCHEMA.projects`. -/
def newProject (env : Env) (u : User) (b : Body) : Project :=
  { id := env.newId 0
    name := b.name.toOption
    description := b.description.toOption
    status := some "active"
    priority := priorityOrMedium b.priority
    deadline := b.deadline.toOption
    start_date := none
    end_date := none
    created_by := some u.id
    updated_at := none }

/-- Lines 155-161: the row that makes the creator the owner. -/
def ownerRow (env : Env) (u : User) (project : Project) : Membership :=
  { id := env.newId 1, project_id := project.id, user_id := u.id, role := "owner" }

def postProject : Handler := fun env db req =>
  match req.user with
  | none => internalError db []
  | some u =>
    let row := newProject env u req.body
    let r := awaitSingle (env.fails 0) [row]
    if r.error then reply 500 (.error "Failed to create project") db [Call.insertProject row]
    else
      match r.data with
      | none => internalError db [Call.insertProject row]
      | some project =>
        let db1 := { db with projects := db.projects ++ [project] }
        let owner := ownerRow env u project
        let db2 :=
          if env.fails 1 then db1
          else { db1 with project_members := db1.project_members ++ [owner] }
        reply 201 (.project project) db2 [Call.insertProject row, Call.insertProjectMember owner]

/-- The expression `x || null` on a string property. -/
def orNull : Field String → Option String
  | .val a => if a = "" then none else some a
  | _ => none

/-- The expression `description?.trim() || null`. -/
def trimOrNull : Field String → Option String
  | .val a => if a.trim = "" then none else some a.trim
  | _ => none

/-- Lines 398-405. -/
def projectUpdateData (env : Env) (name : String) (b : Body) : ProjectPatch :=
  { name := some name.trim
    description := trimOrNull b.description
    status := some ((orNull b.status).getD "planning")
    start_date := orNull b.start_date
    end_date := orNull b.end_date
    updated_at := some env.now }

def ProjectPatch.apply (p : ProjectPatch) (x : Project) : Project :=
  { x with
    name := p.name
    description := p.description
    status := p.status
    start_date := p.start_date
    end_date := p.end_date
    updated_at := p.updated_at }

/-- The statement `update(...).eq(...).select(...).single()` on `projects`. -/
def Datastore.updateProject (db : Datastore) (failed : Bool) (fs : List ProjectFilter)
    (patch : ProjectPatch) : Result Project × Datastore :=
  let r := awaitSingle failed ((db.matchProjects fs).map patch.apply)
  let written := db.projects.map
    (fun x => if fs.all (fun f => f.holds x) then patch.apply x else x)
  (r, if r.error then db else { db with projects := written })

def putProject : Handler := fun env db req =>
  match req.body.name with
  | .val name =>
    if name.trim = "" then reply 400 (.error "Project name is required") db []
    else
      let patch := projectUpdateData env name req.body
      let fs := [ProjectFilter.eqId req.id]
      let (r, db1) := db.updateProject (env.fails 0) fs patch
      if r.error then
        reply 500 (.error "Failed to update project") db1 [Call.updateProject fs patch]
      else reply 200 (projectPayload r.data) db1 [Call.updateProject fs patch]
  | _ => reply 400 (.error "Project name is required") db []

/-- Lines 231-243: the row of the task insert; `status` takes the column default
of `DATABASE_SCHEMA.tasks`. -/
def newTask (env : Env) (u : User) (b : Body) : Task :=
  { id := env.newId 0
    title := b.title.toOption
    description := b.description.toOption
    project_id := b.project_id.toOption
    assigned_to := b.assigned_to.toOption
    created_by := some u.id
    status := some "pending"
    priority := priorityOrMedium b.priority
    due_date := b.due_date.toOption
    completed_at := none
    updated_at := none }

def postTask : Handler := fun env db req =>
  match req.user with
  | none => internalError db []
  | some u =>
    let row := newTask env u req.body
    let r := awaitSingle (env.fails 0) [row]
    if r.error then reply 500 (.error "Failed to create task") db [Call.insertTask row]
    else
      match r.data with
      | none => internalError db [Call.insertTask row]
      | some task =>
        reply 201 (.task task) { db with tasks := db.tasks ++ [task] } [Call.insertTask row]

/-! ## The route table -/

def getProjectsRoute : Handler := runRoute [requireAuth] getProjects
def postProjectRoute : Handler := runRoute [requireRole ["admin", "manager"]] postProject
def getTasksRoute : Handler := runRoute [requireAuth] getTasks
def postTaskRoute : Handler := runRoute [requireRole ["admin", "manager"]] postTask
def putTaskRoute : Handler := runRoute [requireAuth] putTask
def getUsersRoute : Handler := runRoute [requireRole ["admin"]] getUsers
def getProjectByIdRoute : Handler := runRoute [requireAuth] getProjectById
def putProjectRoute : Handler :=
  runRoute [requireAuth, requireRole ["admin", "manager"]] putProject

/-! ## Authentication routes (lines 557-694) -/

/-- The collaborators of the authentication routes besides the datastore:
`bcrypt.hash` and `bcrypt.compare` call back with an error (`none`) or a value,
and `req.logIn` calls back with or without an error.  The second argument of
`compare` is the stored digest, `none` when the column is `null`; bcrypt calls
back with an error for a missing digest and with `false` for a string that is
no digest. -/
structure Crypto where
  hash : String → Option String
  compare : String → Option String → Option Bool
  logInFails : Bool

/-- The two fields of the login and register forms, and the two extra fields a
caller may add to the body; the routes read `username` and `password` only. -/
structure Credentials where
  username : String
  password : String
  role : Option String := none
  status : Option String := none
deriving DecidableEq, Repr

/-- Where `res.redirect(...)` sends the caller; `loginError m` is
`"/login?error=" + encodeURIComponent(m)`. -/
inductive Location where
  | login
  | loginError (message : String)
  | secrets
deriving DecidableEq, Repr

/-- What an authentication route did: the redirect it sent (if any), the
identity it bound to the session (if any), the datastore after it and the
requests it awaited. -/
structure AuthOutcome where
  response : Option Location
  session : Option User
  db : Datastore
  log : List Call
deriving DecidableEq, Repr

/-- The arguments with which the strategy calls `cb`: `cb(err)`,
`cb(null, user)` or `cb(null, false, { message })`. -/
inductive Verified where
  | error
  | user (u : User)
  | refused (message : String)
deriving DecidableEq, Repr

/-- Rows of `users` with the given email: `.eq("email", email)`. -/
def Datastore.usersByEmail (db : Datastore) (email : String) : List User :=
  db.users.filter (fun u => u.email == email)

/-- Lines 643-686, the passport strategy.  passport-local refuses a request
without a username or a password before it calls the strategy. -/
def verify (c : Crypto) (env : Env) (db : Datastore) (username password : String) :
    Verified × List Call :=
  if username = "" ∨ password = "" then (.refused "Missing credentials", [])
  else
    let r := awaitRows (env.fails 0) (db.usersByEmail username)
    if r.error then (.error, [Call.selectUsersByEmail username])
    else
      match r.data.getD [] with
      | user :: _ =>
        match c.compare password user.password with
        | none => (.error, [Call.selectUsersByEmail username])
        | some valid =>
          if valid then (.user user, [Call.selectUsersByEmail username])
          else (.refused "Invalid password", [Call.selectUsersByEmail username])
      | [] => (.refused "User not found", [Call.selectUsersByEmail username])

/-- Lines 559-587, `POST /login`. -/
def login (c : Crypto) (env : Env) (db : Datastore) (body : Credentials) : AuthOutcome :=
  match verify c env db body.username body.password with
  | (.error, log) =>
    { response := some (.loginError "Authentication error occurred"), session := none,
      db := db, log := log }
  | (.refused _, log) =>
    { response := some (.loginError "Invalid email or password"), session := none,
      db := db, log := log }
  | (.user user, log) =>
    if c.logInFails then
      { response := some (.loginError "Login failed"), session := none, db := db, log := log }
    else
      { response := some .secrets, session := some user, db := db, log := log }

/-- Lines 613-620: the row of the users insert. -/
def newUser (env : Env) (email hash : String) : User :=
  { id := env.newId 1, email := email, password := some hash,
    role := some "member", status := some "active" }

/-- Lines 589-639, `POST /register`. -/
def register (c : Crypto) (env : Env) (db : Datastore) (body : Credentials) : AuthOutcome :=
  let email := body.username
  let password := body.password
  let checkResult := awaitRows (env.fails 0) (db.usersByEmail email)
  if checkResult.error then
    { response := some .login, session := none, db := db,
      log := [Call.selectUsersByEmail email] }
  else if (checkResult.data.getD []).length > 0 then
    { response := some .login, session := none, db := db,
      log := [Call.selectUsersByEmail email] }
  else
    match c.hash password with
    | none =>
      { response := none, session := none, db := db, log := [Call.selectUsersByEmail email] }
    | some hash =>
      let row := newUser env email hash
      let result := awaitRows (env.fails 1) [row]
      if result.error then
        { response := some .login, session := none, db := db,
          log := [Call.selectUsersByEmail email, Call.insertUser row] }
      else
        match result.data.getD [] with
        | user :: _ =>
          { response := some .secrets
            session := if c.logInFails then none else some user
            db := { db with users := db.users ++ [user] }
            log := [Call.selectUsersByEmail email, Call.insertUser row] }
        | [] =>
          { response := none, session := none, db := db,
            log := [Call.selectUsersByEmail email, Call.insertUser row] }

/-- No two stored identities have the same email. -/
abbrev Datastore.emailsDistinct (db : Datastore) : Prop :=
  db.users.Pairwise (fun a b => a.email ≠ b.email)

/-- A sequence of register requests handled one after the other. -/
def registerAll (db : Datastore) : List (Crypto × Env × Credentials) → Datastore
  | [] => db
  | (c, env, body) :: rest => registerAll (register c env db body).db rest

/-- Two emails that differ at most in the case of their letters. -/
abbrev sameIgnoringCase (a b : String) : Prop :=
  a.data.map Char.toLower = b.data.map Char.toLower

/-- The order of the three roles: member below manager below admin. -/
abbrev roleBelow (lo hi : String) : Prop :=
  (lo = "member" ∧ (hi = "manager" ∨ hi = "admin")) ∨ (lo = "manager" ∧ hi = "admin")

/-! ## `GET /api/user` (lines 73-83) -/

/-- The expression `req.user.status || "active"`. -/
def User.statusOrActive (u : User) : String :=
  match u.status with
  | some s => if s = "" then "active" else s
  | none => "active"

/-- The handler has no `try`; Express answers the exception of a request
without `req.user` with status 500. -/
def getUser : Handler := fun _ db req =>
  match req.user with
  | none => reply 500 .null db []
  | some u =>
    reply 200
      (.currentUser
        { id := u.id, email := u.email, role := u.roleOrMember, status := u.statusOrActive })
      db []

/-! ## `GET /api/projects/:id/members` (lines 437-464) -/

def getProjectMembers : Handler := fun env db req =>
  let mf := [MemberFilter.eqProjectId req.id]
  let r := awaitRows (env.fails 0) (db.matchMembers mf)
  if r.error then
    reply 500 (.error "Failed to fetch project members") db [Call.selectProjectMembers mf]
  else reply 200 (.members (r.data.getD [])) db [Call.selectProjectMembers mf]

/-! ## `GET /api/dashboard/stats` (lines 466-523) -/

/-- The expression `rows?.filter(f).length || 0`. -/
def countWhere {α : Type} (rows : Option (List α)) (f : α → Bool) : Nat :=
  match rows with
  | some l => (l.filter f).length
  | none => 0

/-- Lines 490-493: the test of the overdue filter; `past d` is
`new Date(d) < today`. -/
def isOverdue (past : String → Bool) (task : Task) : Bool :=
  match task.due_date with
  | none => false
  | some d =>
    if d = "" ∨ task.status = some "completed" then false else past d

def getDashboardStats (past : String → Bool) : Handler := fun env db req =>
  let projects := (awaitRows (env.fails 0) (db.matchProjects [])).data
  let allTasks := (awaitRows (env.fails 1) (db.matchTasks [])).data
  match req.user with
  | none => internalError db [Call.selectProjects [], Call.selectTasks []]
  | some u =>
    let mine := [TaskFilter.eqAssignedTo u.id]
    let userTasks := (awaitRows (env.fails 2) (db.matchTasks mine)).data
    reply 200
      (.stats
        { projectCount := countWhere projects (fun _ => true)
          activeProjects := countWhere projects (fun p => p.status == some "active")
          completedProjects := countWhere projects (fun p => p.status == some "completed")
          taskCount := countWhere allTasks (fun _ => true)
          userTaskCount := countWhere userTasks (fun _ => true)
          overdueTaskCount := countWhere userTasks (isOverdue past)
          onHold := countWhere projects (fun p => p.status == some "on-hold")
          completed := countWhere userTasks (fun t => t.status == some "completed")
          inProgress := countWhere userTasks (fun t => t.status == some "in-progress")
          pending := countWhere userTasks (fun t => t.status == some "pending") })
      db [Call.selectProjects [], Call.selectTasks [], Call.selectTasks mine]

def getUserRoute : Handler := runRoute [requireAuth] getUser
def getProjectMembersRoute : Handler := runRoute [requireAuth] getProjectMembers
def getDashboardStatsRoute (past : String → Bool) : Handler :=
  runRoute [requireAuth] (getDashboardStats past)

/-- The part of a datastore in the scope of the identity `m`: the projects in
which `m` has a membership row, and the membership rows and the tasks of those
projects. -/
def Datastore.scopeOf (db : Datastore) (m : User) :
    List Project × List Membership × List Task :=
  let ids := db.memberProjectIds m
  (db.projects.filter (fun p => ids.contains p.id),
   db.project_members.filter (fun r => ids.contains r.project_id),
   db.tasks.filter (fun t => [TaskFilter.inProjectId ids].all (fun f => f.holds t)))

/-! ## Every route of the server -/

/-- The routes that `index.js` registers. -/
inductive Route where
  | apiUser
  | apiProjectsGet
  | apiProjectsPost
  | apiTasksGet
  | apiTasksPost
  | apiTaskPut
  | apiUsers
  | apiProjectGet
  | apiProjectPut
  | apiProjectMembers
  | apiDashboardStats
  | home
  | loginPage
  | registerPage
  | logout
  | secrets
  | loginPost
  | registerPost
  | test
deriving DecidableEq, Repr

/-- The datastore after a request to a route.  The view routes, `/logout` and
`/test` make no datastore request that writes (`/test` counts the users). -/
def datastoreAfter (route : Route) (c : Crypto) (past : String → Bool) (env : Env)
    (db : Datastore) (req : Req) (body : Credentials) : Datastore :=
  match route with
  | .apiUser => (getUserRoute env db req).db
  | .apiProjectsGet => (getProjectsRoute env db req).db
  | .apiProjectsPost => (postProjectRoute env db req).db
  | .apiTasksGet => (getTasksRoute env db req).db
  | .apiTasksPost => (postTaskRoute env db req).db
  | .apiTaskPut => (putTaskRoute env db req).db
  | .apiUsers => (getUsersRoute env db req).db
  | .apiProjectGet => (getProjectByIdRoute env db req).db
  | .apiProjectPut => (putProjectRoute env db req).db
  | .apiProjectMembers => (getProjectMembersRoute env db req).db
  | .apiDashboardStats => (getDashboardStatsRoute past env db req).db
  | .loginPost => (login c env db body).db
  | .registerPost => (register c env db body).db
  | .home => db
  | .loginPage => db
  | .registerPage => db
  | .logout => db
  | .secrets => db
  | .test => db

/-! ## The browser code (`public/js/dashboard.js`) -/

/-- The global `auth`, the `AuthManager` of `auth.js`. -/
structure AuthManager where
  currentUser : Option CurrentUser
deriving DecidableEq, Repr

/-- Lines 364-374, `DashboardManager.canEditTask`; `auth` is `none` when the
global is not set. -/
def canEditTask (auth : Option AuthManager) (task : Task) : Bool :=
  match auth with
  | none => false
  | some a =>
    match a.currentUser with
    | none => false
    | some currentUser =>
      if ["admin", "manager"].contains currentUser.role then true
      else some currentUser.id == task.assigned_to

/-- The call `statuses.indexOf(x)`: the first position of `x`, `-1` when it
does not occur. -/
def indexOf (statuses : List String) (x : Option String) : Int :=
  match statuses with
  | [] => -1
  | s :: rest =>
    if some s = x then 0
    else
      let i := indexOf rest x
      if i = -1 then -1 else i + 1

/-- Lines 769-773 of `updateTaskStatus`: the status sent to the server. -/
def nextStatus (status : Option String) : Option String :=
  let statuses := ["pending", "in-progress", "completed"]
  let currentIndex := indexOf statuses status
  let nextIndex := (currentIndex + 1) % (statuses.length : Int)
  statuses.get? nextIndex.toNat

/-- Rounding to the nearest integer, ties to the even one: the rounding of
binary64 arithmetic. -/
def roundHalfEven (x : ℚ) : ℤ :=
  let f := ⌊x⌋
  let r := x - f
  if r < 1 / 2 then f
  else if 1 / 2 < r then f + 1
  else if f % 2 = 0 then f else f + 1

/-- The binary64 number nearest to `q`, which is the value of a JavaScript
arithmetic operation whose exact result is `q`: 53 significant bits, ties to
even.  The exponent range is not bounded; the operands below are lengths of
arrays, which are under `2 ^ 32`. -/
def toDouble (q : ℚ) : ℚ :=
  if q ≤ 0 then 0
  else
    let ulp : ℚ := 2 ^ (Int.log 2 q - 52)
    roundHalfEven (q / ulp) * ulp

/-- The function `Math.round`: the nearest integer, ties upwards. -/
def mathRound (x : ℚ) : ℤ := ⌊x + 1 / 2⌋

/-- Lines 254-264, `DashboardManager.calculateProjectProgress`, on the task
list `this.tasks`. -/
def calculateProjectProgress (tasks : List Task) (projectId : Id) : ℤ :=
  let projectTasks := tasks.filter (fun task => task.project_id == some projectId)
  if projectTasks.length = 0 then 0
  else
    let completedTasks := projectTasks.filter (fun task => task.status == some "completed")
    mathRound
      (toDouble (toDouble ((completedTasks.length : ℚ) / (projectTasks.length : ℚ)) * 100))

/-! ## Two register requests in flight -/

/-- Where a run of the register handler stands between its awaits: before the
lookup, before the insert of the row it built, or after its last statement,
with the redirect it sent and the identity it bound. -/
inductive RegisterRun where
  | lookup
  | insert (row : User)
  | finished (response : Option Location) (session : Option User)
deriving DecidableEq, Repr

/-- The next datastore request of a run of the register handler (lines 594-597,
then lines 611-621 in the callback of `bcrypt.hash`), made on the datastore as
it is at that moment.  `enforced` says whether the datastore enforces the
constraint `email: "text unique not null"` that `DATABASE_SCHEMA.users`
declares; it then answers the insert of an email that is stored with an
error. -/
def registerStep (enforced : Bool) (c : Crypto) (env : Env) (body : Credentials)
    (db : Datastore) : RegisterRun → Datastore × RegisterRun
  | .lookup =>
    let checkResult := awaitRows (env.fails 0) (db.usersByEmail body.username)
    if checkResult.error then (db, .finished (some .login) none)
    else if (checkResult.data.getD []).length > 0 then (db, .finished (some .login) none)
    else
      match c.hash body.password with
      | none => (db, .finished none none)
      | some hash => (db, .insert (newUser env body.username hash))
  | .insert row =>
    let violates := enforced && !(db.usersByEmail row.email).isEmpty
    let result := awaitRows (env.fails 1 || violates) [row]
    if result.error then (db, .finished (some .login) none)
    else
      match result.data.getD [] with
      | user :: _ =>
        ({ db with users := db.users ++ [user] },
         .finished (some .secrets) (if c.logInFails then none else some user))
      | [] => (db, .finished none none)
  | .finished response session => (db, .finished response session)

/-- Two runs of the register handler against one datastore. -/
structure Race where
  db : Datastore
  first : RegisterRun
  second : RegisterRun
deriving DecidableEq, Repr

/-- One of the two runs makes its next datastore request: the first when
`pick` is true, the second otherwise. -/
def Race.step (enforced : Bool) (ra rb : Crypto × Env × Credentials) (s : Race)
    (pick : Bool) : Race :=
  if pick then
    let r := registerStep enforced ra.1 ra.2.1 ra.2.2 s.db s.first
    { s with db := r.1, first := r.2 }
  else
    let r := registerStep enforced rb.1 rb.2.1 rb.2.2 s.db s.second
    { s with db := r.1, second := r.2 }

/-- An interleaving of the two runs: the list says whose request comes next. -/
def Race.run (enforced : Bool) (ra rb : Crypto × Env × Credentials) (s : Race) :
    List Bool → Race
  | [] => s
  | pick :: rest => Race.run enforced ra rb (Race.step enforced ra rb s pick) rest

/-- The run ended Registered: it stored its row and redirected to `/secrets`. -/
def RegisterRun.registered (r : RegisterRun) : Prop :=
  ∃ session, r = .finished (some .secrets) session

/-- The run ended Rejected: it redirected to `/login` without a session. -/
def RegisterRun.rejected (r : RegisterRun) : Prop :=
  r = .finished (some .login) none

/-- The run has executed its last statement. -/
def RegisterRun.ended (r : RegisterRun) : Prop :=
  ∃ response session, r = .finished response session

/-- The run still has a request to make for the email `e`. -/
def RegisterRun.pending (e : String) (r : RegisterRun) : Prop :=
  r = .lookup ∨ ∃ row, r = .insert row ∧ row.email = e

/-- What holds of two runs for the free email `e` started on `db`, under the
constraint: nobody has stored a row and both are pending, or one run is
registered, its row is the one row added, and the other is pending or
rejected. -/
def Race.inv (db : Datastore) (e : String) (s : Race) : Prop :=
  (s.db.users = db.users ∧ s.first.pending e ∧ s.second.pending e) ∨
  (∃ row, row.email = e ∧ s.db.users = db.users ++ [row] ∧
    ((s.first.registered ∧ (s.second.pending e ∨ s.second.rejected)) ∨
     (s.second.registered ∧ (s.first.pending e ∨ s.first.rejected))))

/-! ## Concrete data used by the evaluations below -/

/-- An environment in which every datastore request is answered. -/
def env0 : Env :=
  { fails := fun _ => false
    now := "2025-10-04T09:27:40.000Z"
    newId := fun n => if n = 0 then "new-0" else "new-1" }

def alice : User :=
  { id := "u1", email := "alice@x.com", password := some "$2b$10$digest1",
    role := some "admin", status := some "suspended" }

def bob : User :=
  { id := "u2", email := "bob@x.com", password := some "$2b$10$digest2",
    role := some "member", status := some "active" }

def carol : User :=
  { id := "u3", email := "carol@x.com", password := some "$2b$10$digest3",
    role := some "manager", status := some "active" }

def dave : User :=
  { id := "u4", email := "dave@x.com", password := some "$2b$10$digest4",
    role := some "admin", status := some "active" }

def site : Project :=
  { id := "p1", name := some "Site Redesign", description := none, status := some "active",
    priority := some "medium", deadline := none, start_date := none, end_date := none,
    created_by := some "u1", updated_at := none }

def report : Task :=
  { id := "t1", title := some "Write report", description := none, project_id := some "p1",
    assigned_to := some "u1", created_by := some "u3", status := some "completed",
    priority := some "medium", due_date := none,
    completed_at := some "2025-10-01T08:00:00.000Z", updated_at := none }

def db0 : Datastore :=
  { users := [alice, bob, carol, dave]
    projects := [site]
    project_members := [{ id := "m1", project_id := "p1", user_id := "u1", role := "owner" }]
    tasks := [report] }

/-- A bcrypt as the library behaves: `compare` calls back with an error when
the digest is missing, with `false` when the stored string is no bcrypt digest,
and otherwise tells whether the password is `"secret"`; `hash` gives every
password the digest `"$2b$10$fresh"`. -/
def crypto0 : Crypto :=
  { hash := fun _ => some "$2b$10$fresh"
    compare := fun password digest =>
      match digest with
      | none => none
      | some d => some (password == "secret" && d.data.take 4 == "$2b$".data)
    logInFails := false }

/-- An identity stored without a digest: its `password` column is `null`. -/
def eve : User :=
  { id := "u5", email := "eve@x.com", password := none,
    role := some "member", status := some "active" }

/-- An identity whose stored `password` is a string that is no bcrypt digest. -/
def zoe : User :=
  { id := "u8", email := "zoe@x.com", password := some "broken",
    role := some "member", status := some "active" }

/-- The datastore `db0` with eve and zoe added. -/
def db2 : Datastore := { db0 with users := db0.users ++ [eve, zoe] }

/-- A second environment, whose datastore hands out other ids. -/
def env2 : Env := { env0 with newId := fun n => if n = 0 then "new-2" else "new-3" }

/-- An environment in which the second datastore request of a handler fails. -/
def env1 : Env := { env0 with fails := fun n => n == 1 }

/-- An authenticated identity without a role. -/
def guest : User :=
  { id := "u6", email := "guest@x.com", password := some "$2b$10$digest6",
    role := none, status := none }

/-- An authenticated identity with a role outside the three known ones. -/
def mallory : User :=
  { id := "u7", email := "mallory@x.com", password := some "$2b$10$digest7",
    role := some "superuser", status := some "active" }

/-- A bcrypt whose hash calls back with an error. -/
def cryptoHashFails : Crypto := { crypto0 with hash := fun _ => none }

/-- The datastore `db0` after bob joined the project. -/
def db1 : Datastore :=
  { db0 with
    project_members := db0.project_members ++
      [{ id := "m2", project_id := "p1", user_id := "u2", role := "member" }] }

/-- The datastore `db1` with a second project, of which alice alone is a
member, and a task of that project. -/
def db3 : Datastore :=
  { db1 with
    projects := db1.projects ++
      [{ site with id := "p2", name := some "Payroll" }]
    project_members := db1.project_members ++
      [{ id := "m3", project_id := "p2", user_id := "u1", role := "owner" }]
    tasks := db1.tasks ++
      [{ report with id := "t2", project_id := some "p2", status := some "pending",
                     completed_at := none }] }

/-- A clock for which no due date is in the past. -/
def past0 : String → Bool := fun _ => false

/-! ## Theorems -/

/-- What `requireRole(roles)` does with an authenticated request. -/
theorem requireRole_of_user (roles : List String) (req : Req) (u : User)
    (h : req.user = some u) :
    requireRole roles req =
      (if roles.contains u.roleOrMember then Verdict.next
       else Verdict.respond { status := 403, payload := .error "Insufficient permissions" }) := by
  unfold requireRole
  rw [h]
  by_cases c : roles.contains u.roleOrMember = true <;> simp [c]

/-- What `requireAuth` does with an authenticated request. -/
theorem requireAuth_of_user (req : Req) (u : User) (h : req.user = some u) :
    requireAuth req = Verdict.next := by
  simp [requireAuth, Req.isAuthenticated, h]

/-- C1 (counterexample): alice is an authenticated admin whose status is
suspended; `requireAuth` and `requireRole(["admin"])` both call `next`, and the
user list is served to her. -/
theorem suspended_admin_passes_every_check :
    alice.status = some "suspended" ∧
    requireAuth { user := some alice } = Verdict.next ∧
    requireRole ["admin"] { user := some alice } = Verdict.next ∧
    (getUsersRoute env0 db0 { user := some alice }).response =
      some { status := 200, payload := .users (db0.users.map User.info) } := by
  decide

/-- C1 (amended): the access checks never read the status.  For an authenticated
identity whose status is suspended, `requireAuth` calls `next`, and
`requireRole(roles)` decides as it does for the same identity with any other
status: `next` when the role (member when unset) is in `roles`, 403 otherwise. -/
theorem access_checks_ignore_status (u : User) (req : Req) (roles : List String)
    (st : Option String) :
    requireAuth { req with user := some { u with status := some "suspended" } } = Verdict.next ∧
    requireRole roles { req with user := some { u with status := some "suspended" } } =
      requireRole roles { req with user := some { u with status := st } } ∧
    requireRole roles { req with user := some { u with status := some "suspended" } } =
      (if roles.contains u.roleOrMember then Verdict.next
       else Verdict.respond { status := 403, payload := .error "Insufficient permissions" }) := by
  refine ⟨rfl, rfl, ?_⟩
  rw [requireRole_of_user roles _ _ rfl]
  rfl

/-- The role test of `requireRole(["admin", "manager"])`. -/
theorem contains_admin_manager (u : User) :
    ["admin", "manager"].contains u.roleOrMember = true ↔
      (u.role = some "admin" ∨ u.role = some "manager") := by
  unfold User.roleOrMember
  rcases u with ⟨id, email, password, role, status⟩
  cases role with
  | none => simp
  | some r =>
    by_cases h : r = ""
    · subst h; simp
    · simp [h]

/-- The role test of `requireRole(["admin"])`. -/
theorem contains_admin (u : User) :
    ["admin"].contains u.roleOrMember = true ↔ u.role = some "admin" := by
  unfold User.roleOrMember
  rcases u with ⟨id, email, password, role, status⟩
  cases role with
  | none => simp
  | some r =>
    by_cases h : r = ""
    · subst h; simp
    · simp [h]

/-- A route whose only guard is `requireRole(roles)`, on an authenticated request. -/
theorem runRoute_requireRole (roles : List String) (h : Handler) (env : Env) (db : Datastore)
    (req : Req) (u : User) (hu : req.user = some u) :
    runRoute [requireRole roles] h env db req =
      (if roles.contains u.roleOrMember then h env db req
       else reply 403 (.error "Insufficient permissions") db []) := by
  simp only [runRoute, requireRole_of_user roles req u hu]
  by_cases c : roles.contains u.roleOrMember = true
  · simp only [if_pos c]
  · simp only [if_neg c]
    rfl

/-- A route guarded by `requireAuth` and then `requireRole(roles)`, on an
authenticated request. -/
theorem runRoute_requireAuth_requireRole (roles : List String) (h : Handler) (env : Env)
    (db : Datastore) (req : Req) (u : User) (hu : req.user = some u) :
    runRoute [requireAuth, requireRole roles] h env db req =
      (if roles.contains u.roleOrMember then h env db req
       else reply 403 (.error "Insufficient permissions") db []) := by
  simp only [runRoute, requireRole_of_user roles req u hu, requireAuth_of_user req u hu]
  by_cases c : roles.contains u.roleOrMember = true
  · simp only [if_pos c]
  · simp only [if_neg c]
    rfl

/-- A route whose only guard is `requireAuth`, on an authenticated request. -/
theorem runRoute_requireAuth (h : Handler) (env : Env) (db : Datastore)
    (req : Req) (u : User) (hu : req.user = some u) :
    runRoute [requireAuth] h env db req = h env db req := by
  simp only [runRoute, requireAuth_of_user req u hu]

/-- C3: on an authenticated request `requireRole(["admin", "manager"])` calls
`next` iff the role is admin or manager; otherwise (so for a member and for an
identity with no role) it answers 403, and create-project, update-project and
create-task answer 403 without running their handler: no datastore request is
made and the datastore is unchanged. -/
theorem requireRole_admin_manager_guard (env : Env) (db : Datastore) (req : Req) (u : User)
    (hu : req.user = some u) :
    (requireRole ["admin", "manager"] req = Verdict.next ↔
      (u.role = some "admin" ∨ u.role = some "manager")) ∧
    (¬ (u.role = some "admin" ∨ u.role = some "manager") →
      requireRole ["admin", "manager"] req =
        Verdict.respond { status := 403, payload := .error "Insufficient permissions" }) ∧
    ((u.role = some "member" ∨ u.role = none) →
      requireRole ["admin", "manager"] req =
        Verdict.respond { status := 403, payload := .error "Insufficient permissions" }) ∧
    postProjectRoute env db req =
      (if u.role = some "admin" ∨ u.role = some "manager" then postProject env db req
       else reply 403 (.error "Insufficient permissions") db []) ∧
    putProjectRoute env db req =
      (if u.role = some "admin" ∨ u.role = some "manager" then putProject env db req
       else reply 403 (.error "Insufficient permissions") db []) ∧
    postTaskRoute env db req =
      (if u.role = some "admin" ∨ u.role = some "manager" then postTask env db req
       else reply 403 (.error "Insufficient permissions") db []) := by
  have key := contains_admin_manager u
  have hv := requireRole_of_user ["admin", "manager"] req u hu
  have hdeny : ¬ (u.role = some "admin" ∨ u.role = some "manager") →
      requireRole ["admin", "manager"] req =
        Verdict.respond { status := 403, payload := .error "Insufficient permissions" } := by
    intro hn
    rw [hv, if_neg (fun c => hn (key.mp c))]
  refine ⟨?_, hdeny, ?_, ?_, ?_, ?_⟩
  · rw [hv]
    constructor
    · intro hnext
      by_cases c : ["admin", "manager"].contains u.roleOrMember = true
      · exact key.mp c
      · rw [if_neg c] at hnext
        cases hnext
    · intro hr
      rw [if_pos (key.mpr hr)]
  · intro hm
    apply hdeny
    rcases hm with hm | hm <;> rw [hm] <;> decide
  · rw [postProjectRoute, runRoute_requireRole _ _ _ _ _ u hu]
    by_cases c : u.role = some "admin" ∨ u.role = some "manager"
    · rw [if_pos c, if_pos (key.mpr c)]
    · rw [if_neg c, if_neg (fun x => c (key.mp x))]
  · rw [putProjectRoute, runRoute_requireAuth_requireRole _ _ _ _ _ u hu]
    by_cases c : u.role = some "admin" ∨ u.role = some "manager"
    · rw [if_pos c, if_pos (key.mpr c)]
    · rw [if_neg c, if_neg (fun x => c (key.mp x))]
  · rw [postTaskRoute, runRoute_requireRole _ _ _ _ _ u hu]
    by_cases c : u.role = some "admin" ∨ u.role = some "manager"
    · rw [if_pos c, if_pos (key.mpr c)]
    · rw [if_neg c, if_neg (fun x => c (key.mp x))]

/-- C3 (witness): bob, a member, is answered 403 by create-project and nothing
is written; carol, a manager, reaches the handler. -/
theorem requireRole_admin_manager_guard_witness :
    ({ user := some bob } : Req).user = some bob ∧
    postProjectRoute env0 db0 { user := some bob } =
      reply 403 (.error "Insufficient permissions") db0 [] ∧
    requireRole ["admin", "manager"] { user := some carol } = Verdict.next :=
  ⟨rfl,
   (requireRole_admin_manager_guard env0 db0 { user := some bob } bob rfl).2.2.2.1.trans rfl,
   (requireRole_admin_manager_guard env0 db0 { user := some carol } carol rfl).1.mpr
     (Or.inr rfl)⟩

/-- C5: on an authenticated request the guard of `GET /api/users` calls `next`
iff the role is admin; the route runs its handler in that case and otherwise
answers 403 with no datastore request, in particular for every manager and
member. -/
theorem getUsers_admin_only (env : Env) (db : Datastore) (req : Req) (u : User)
    (hu : req.user = some u) :
    (requireRole ["admin"] req = Verdict.next ↔ u.role = some "admin") ∧
    getUsersRoute env db req =
      (if u.role = some "admin" then getUsers env db req
       else reply 403 (.error "Insufficient permissions") db []) ∧
    ((u.role = some "manager" ∨ u.role = some "member") →
      getUsersRoute env db req = reply 403 (.error "Insufficient permissions") db []) := by
  have key := contains_admin u
  have hv := requireRole_of_user ["admin"] req u hu
  have hroute : getUsersRoute env db req =
      (if u.role = some "admin" then getUsers env db req
       else reply 403 (.error "Insufficient permissions") db []) := by
    rw [getUsersRoute, runRoute_requireRole _ _ _ _ _ u hu]
    by_cases c : u.role = some "admin"
    · rw [if_pos c, if_pos (key.mpr c)]
    · rw [if_neg c, if_neg (fun x => c (key.mp x))]
  refine ⟨?_, hroute, ?_⟩
  · rw [hv]
    constructor
    · intro hnext
      by_cases c : ["admin"].contains u.roleOrMember = true
      · exact key.mp c
      · rw [if_neg c] at hnext
        cases hnext
    · intro hr
      rw [if_pos (key.mpr hr)]
  · intro hm
    rw [hroute, if_neg]
    rcases hm with hm | hm <;> rw [hm] <;> decide

/-- C5 (witness): carol, a manager, is answered 403 and no request is logged;
dave, an admin, gets the user list. -/
theorem getUsers_admin_only_witness :
    ({ user := some carol } : Req).user = some carol ∧
    getUsersRoute env0 db0 { user := some carol } =
      reply 403 (.error "Insufficient permissions") db0 [] ∧
    getUsersRoute env0 db0 { user := some dave } =
      reply 200 (.users (db0.users.map User.info)) db0 [Call.selectUsers] :=
  ⟨rfl,
   (getUsers_admin_only env0 db0 { user := some carol } carol rfl).2.2 (Or.inl rfl),
   (getUsers_admin_only env0 db0 { user := some dave } dave rfl).2.1.trans rfl⟩

/-- The filters taken from the query string never include a membership filter. -/
theorem callerFilters_no_membership (q : TaskQuery) (ids : List Id) :
    TaskFilter.inProjectId ids ∉ callerFilters q := by
  unfold callerFilters
  cases truthy q.project_id <;> cases truthy q.status <;> cases truthy q.assigned_to <;> simp

/-- A query without filters matches every row. -/
theorem matchProjects_nil (db : Datastore) : db.matchProjects [] = db.projects := by
  simp [Datastore.matchProjects]

/-- C4: for an authenticated admin every authorization decision allows.
`requireAuth` and `requireRole` (for both role lists in use) call `next`; the
project list and the task list issue one query, without a membership lookup and
without a membership filter; the single-project read never answers 403. -/
theorem admin_always_allowed (env : Env) (db : Datastore) (req : Req) (u : User)
    (hu : req.user = some u) (hr : u.role = some "admin") :
    requireAuth req = Verdict.next ∧
    requireRole ["admin", "manager"] req = Verdict.next ∧
    requireRole ["admin"] req = Verdict.next ∧
    (getProjectsRoute env db req).log = [Call.selectProjects []] ∧
    (getProjectsRoute env db req).response =
      some (if env.fails 0 then { status := 500, payload := .error "Failed to fetch projects" }
            else { status := 200, payload := .projects db.projects }) ∧
    (getTasksRoute env db req).log = [Call.selectTasks (callerFilters req.query)] ∧
    (∀ ids, TaskFilter.inProjectId ids ∉ callerFilters req.query) ∧
    (∀ r, (getProjectByIdRoute env db req).response = some r → r.status ≠ 403) := by
  have hna : u.notAdmin = false := by simp [User.notAdmin, hr]
  refine ⟨requireAuth_of_user req u hu, ?_, ?_, ?_, ?_, ?_, ?_, ?_⟩
  · rw [requireRole_of_user _ req u hu, if_pos ((contains_admin_manager u).mpr (Or.inl hr))]
  · rw [requireRole_of_user _ req u hu, if_pos ((contains_admin u).mpr hr)]
  · rw [getProjectsRoute, runRoute_requireAuth _ _ _ _ u hu]
    simp only [getProjects, hu, hna]
    cases hf : env.fails 0 <;> simp [awaitProjectsQuery, awaitRows, hf, reply]
  · rw [getProjectsRoute, runRoute_requireAuth _ _ _ _ u hu]
    simp only [getProjects, hu, hna]
    cases hf : env.fails 0 <;>
      simp [awaitProjectsQuery, awaitRows, hf, reply, matchProjects_nil]
  · rw [getTasksRoute, runRoute_requireAuth _ _ _ _ u hu]
    simp only [getTasks, hu, hna]
    cases hf : env.fails 0 <;> simp [awaitTasksQuery, awaitRows, hf, reply]
  · exact callerFilters_no_membership req.query
  · intro r
    rw [getProjectByIdRoute, runRoute_requireAuth _ _ _ _ u hu]
    simp only [getProjectById, hu, hna]
    cases (awaitSingle (env.fails 0) (db.matchProjects [ProjectFilter.eqId req.id])).error
    · simp only [reply]
      intro h
      cases h
      simp
    · simp only [reply]
      intro h
      cases h
      simp

/-- C4 (witness): dave, an admin without any membership row, lists the project
of the datastore with a single unfiltered query. -/
theorem admin_always_allowed_witness :
    ({ user := some dave } : Req).user = some dave ∧ dave.role = some "admin" ∧
    (getProjectsRoute env0 db0 { user := some dave }).log = [Call.selectProjects []] ∧
    (getProjectsRoute env0 db0 { user := some dave }).response =
      some { status := 200, payload := .projects [site] } :=
  ⟨rfl, rfl,
   (admin_always_allowed env0 db0 { user := some dave } dave rfl rfl).2.2.2.1,
   (admin_always_allowed env0 db0 { user := some dave } dave rfl rfl).2.2.2.2.1⟩

/-- The project ids of the lookup are those of the membership rows of the user. -/
theorem mem_memberProjectIds (db : Datastore) (u : User) (pid : Id) :
    pid ∈ db.memberProjectIds u ↔
      ∃ r ∈ db.project_members, r.user_id = u.id ∧ r.project_id = pid := by
  simp only [Datastore.memberProjectIds, projectIdsOf, awaitRows, Datastore.matchMembers,
    membershipLookup, MemberFilter.holds, Bool.false_eq_true, if_false, List.mem_map,
    List.mem_filter, List.all_cons, List.all_nil, Bool.and_true, beq_iff_eq]
  constructor
  · rintro ⟨a, ⟨ha, hau⟩, hap⟩
    exact ⟨a, ha, hau, hap⟩
  · rintro ⟨a, ha, hau, hap⟩
    exact ⟨a, ⟨ha, hau⟩, hap⟩

/-- The project list for an identity that is not admin, branch by branch. -/
theorem getProjects_nonAdmin (env : Env) (db : Datastore) (req : Req) (u : User)
    (hu : req.user = some u) (hna : u.notAdmin = true) :
    getProjects env db req =
      (if env.fails 0 = true ∨ db.memberProjectIds u = [] then
        reply 200 (.projects []) db [Call.selectProjectMembers (membershipLookup u)]
       else if env.fails 1 = true then
        reply 500 (.error "Failed to fetch projects") db
          [Call.selectProjectMembers (membershipLookup u),
           Call.selectProjects [.inId (db.memberProjectIds u)]]
       else
        reply 200 (.projects (db.matchProjects [.inId (db.memberProjectIds u)])) db
          [Call.selectProjectMembers (membershipLookup u),
           Call.selectProjects [.inId (db.memberProjectIds u)]]) := by
  simp only [getProjects, hu, hna, if_true]
  cases hf : env.fails 0
  · by_cases he : db.memberProjectIds u = []
    · have he2 := he
      simp only [Datastore.memberProjectIds] at he2
      simp [he, he2]
    · have he2 := he
      simp only [Datastore.memberProjectIds] at he2
      have hpos : (projectIdsOf (awaitRows false (db.matchMembers (membershipLookup u)))).length > 0 :=
        List.length_pos.mpr he2
      simp only [hpos, if_true, he, or_false, Bool.false_eq_true, if_false]
      cases hg : env.fails 1 <;>
        simp [awaitProjectsQuery, awaitRows, hg, Datastore.memberProjectIds]
  · simp [awaitRows, projectIdsOf]

/-- The task list for an identity that is not admin, branch by branch. -/
theorem getTasks_nonAdmin (env : Env) (db : Datastore) (req : Req) (u : User)
    (hu : req.user = some u) (hna : u.notAdmin = true) :
    getTasks env db req =
      (if env.fails 0 = true ∨ db.memberProjectIds u = [] then
        reply 200 (.tasks []) db [Call.selectProjectMembers (membershipLookup u)]
       else if env.fails 1 = true then
        reply 500 (.error "Failed to fetch tasks") db
          [Call.selectProjectMembers (membershipLookup u),
           Call.selectTasks (callerFilters req.query ++ [.inProjectId (db.memberProjectIds u)])]
       else
        reply 200 (.tasks (db.matchTasks
            (callerFilters req.query ++ [.inProjectId (db.memberProjectIds u)]))) db
          [Call.selectProjectMembers (membershipLookup u),
           Call.selectTasks
             (callerFilters req.query ++ [.inProjectId (db.memberProjectIds u)])]) := by
  simp only [getTasks, hu, hna, if_true]
  cases hf : env.fails 0
  · by_cases he : db.memberProjectIds u = []
    · have he2 := he
      simp only [Datastore.memberProjectIds] at he2
      simp [he, he2]
    · have he2 := he
      simp only [Datastore.memberProjectIds] at he2
      have hpos : (projectIdsOf (awaitRows false (db.matchMembers (membershipLookup u)))).length > 0 :=
        List.length_pos.mpr he2
      simp only [hpos, if_true, he, or_false, Bool.false_eq_true, if_false]
      cases hg : env.fails 1 <;>
        simp [awaitTasksQuery, awaitRows, hg, Datastore.memberProjectIds]
  · simp [awaitRows, projectIdsOf]

/-- No membership row of the user: the lookup yields no project id. -/
theorem memberProjectIds_eq_nil (db : Datastore) (u : User)
    (h : ∀ r ∈ db.project_members, r.user_id ≠ u.id) : db.memberProjectIds u = [] := by
  apply List.eq_nil_iff_forall_not_mem.mpr
  intro pid hpid
  obtain ⟨r, hr, hru, _⟩ := (mem_memberProjectIds db u pid).mp hpid
  exact h r hr hru

/-- Rows answered by the projects query filtered with `.in("id", ids)`. -/
theorem mem_matchProjects_inId (db : Datastore) (ids : List Id) (p : Project) :
    p ∈ db.matchProjects [.inId ids] ↔ p ∈ db.projects ∧ p.id ∈ ids := by
  simp [Datastore.matchProjects, ProjectFilter.holds]

/-- Rows answered by the tasks query that carries the membership filter. -/
theorem mem_matchTasks_scoped (db : Datastore) (fs : List TaskFilter) (ids : List Id)
    (t : Task) :
    t ∈ db.matchTasks (fs ++ [.inProjectId ids]) ↔
      t ∈ db.matchTasks fs ∧ ∃ pid ∈ ids, t.project_id = some pid := by
  simp only [Datastore.matchTasks, List.mem_filter, List.all_append, List.all_cons,
    List.all_nil, Bool.and_true, Bool.and_eq_true, TaskFilter.holds]
  cases hp : t.project_id with
  | none => simp
  | some pid => simp [and_assoc]

/-- A user whose role is member or manager takes the branch `role !== "admin"`. -/
theorem notAdmin_of_role (u : User) (h : u.role = some "member" ∨ u.role = some "manager") :
    u.notAdmin = true := by
  rcases h with h | h <;> simp [User.notAdmin, h]

/-- C7: a member whose membership lookup yields no rows, because no membership
row names the member or because the lookup is answered without data, gets the
empty list from `GET /api/projects` and from `GET /api/tasks`; the only request
made is the lookup, so the projects (tasks) query is never executed. -/
theorem member_without_membership_gets_nothing (env : Env) (db : Datastore) (req : Req)
    (u : User) (hu : req.user = some u) (hr : u.role = some "member")
    (hnone : env.fails 0 = true ∨ ∀ r ∈ db.project_members, r.user_id ≠ u.id) :
    getProjectsRoute env db req =
      reply 200 (.projects []) db [Call.selectProjectMembers (membershipLookup u)] ∧
    getTasksRoute env db req =
      reply 200 (.tasks []) db [Call.selectProjectMembers (membershipLookup u)] ∧
    (∀ fs, Call.selectProjects fs ∉ (getProjectsRoute env db req).log) ∧
    (∀ fs, Call.selectTasks fs ∉ (getTasksRoute env db req).log) := by
  have hna := notAdmin_of_role u (Or.inl hr)
  have hc : env.fails 0 = true ∨ db.memberProjectIds u = [] :=
    hnone.imp id (memberProjectIds_eq_nil db u)
  have hp : getProjectsRoute env db req =
      reply 200 (.projects []) db [Call.selectProjectMembers (membershipLookup u)] := by
    rw [getProjectsRoute, runRoute_requireAuth _ _ _ _ u hu,
      getProjects_nonAdmin env db req u hu hna, if_pos hc]
  have ht : getTasksRoute env db req =
      reply 200 (.tasks []) db [Call.selectProjectMembers (membershipLookup u)] := by
    rw [getTasksRoute, runRoute_requireAuth _ _ _ _ u hu,
      getTasks_nonAdmin env db req u hu hna, if_pos hc]
  refine ⟨hp, ht, ?_, ?_⟩
  · intro fs
    rw [hp]
    simp [reply]
  · intro fs
    rw [ht]
    simp [reply]

/-- C7 (witness): bob is a member without membership rows in a datastore that
holds a project and a task; both lists are empty and only the lookup is made. -/
theorem member_without_membership_gets_nothing_witness :
    ({ user := some bob } : Req).user = some bob ∧ bob.role = some "member" ∧
    (∀ r ∈ db0.project_members, r.user_id ≠ bob.id) ∧
    getProjectsRoute env0 db0 { user := some bob } =
      reply 200 (.projects []) db0 [Call.selectProjectMembers [.eqUserId "u2"]] ∧
    getTasksRoute env0 db0 { user := some bob } =
      reply 200 (.tasks []) db0 [Call.selectProjectMembers [.eqUserId "u2"]] :=
  ⟨rfl, rfl, by decide,
   (member_without_membership_gets_nothing env0 db0 { user := some bob } bob rfl rfl
      (Or.inr (by decide))).1,
   (member_without_membership_gets_nothing env0 db0 { user := some bob } bob rfl rfl
      (Or.inr (by decide))).2.1⟩

/-- C8: for a member `m` and every datastore state whose requests are answered,
the ids that filter `GET /api/projects` are exactly the `project_id`s of the
membership rows with `user_id = m.id` (the filter is `.in("id", ids)`, or the
empty answer when there is no id), and a project is in the answer iff it is
stored and a membership row for that project and `m` exists. -/
theorem member_project_scope (env : Env) (db : Datastore) (req : Req) (m : User)
    (hu : req.user = some m) (hr : m.role = some "member")
    (h0 : env.fails 0 = false) (h1 : env.fails 1 = false) :
    ∃ ids : List Id,
      (∀ pid, pid ∈ ids ↔ ∃ r ∈ db.project_members, r.user_id = m.id ∧ r.project_id = pid) ∧
      (getProjectsRoute env db req).log =
        (if ids = [] then [Call.selectProjectMembers (membershipLookup m)]
         else [Call.selectProjectMembers (membershipLookup m),
               Call.selectProjects [.inId ids]]) ∧
      ∃ ps : List Project,
        (getProjectsRoute env db req).response =
          some { status := 200, payload := .projects ps } ∧
        ∀ p, p ∈ ps ↔
          (p ∈ db.projects ∧
            ∃ r ∈ db.project_members, r.project_id = p.id ∧ r.user_id = m.id) := by
  have hna := notAdmin_of_role m (Or.inl hr)
  refine ⟨db.memberProjectIds m, mem_memberProjectIds db m, ?_, ?_⟩
  · rw [getProjectsRoute, runRoute_requireAuth _ _ _ _ m hu,
      getProjects_nonAdmin env db req m hu hna]
    by_cases he : db.memberProjectIds m = []
    · simp [he, reply]
    · simp [he, h0, h1, reply]
  · refine ⟨db.matchProjects [.inId (db.memberProjectIds m)], ?_, ?_⟩
    · rw [getProjectsRoute, runRoute_requireAuth _ _ _ _ m hu,
        getProjects_nonAdmin env db req m hu hna]
      by_cases he : db.memberProjectIds m = []
      · simp [he, reply, Datastore.matchProjects, ProjectFilter.holds]
      · simp [he, h0, h1, reply]
    · intro p
      rw [mem_matchProjects_inId, mem_memberProjectIds]
      constructor
      · rintro ⟨hp, r, hrm, hru, hrp⟩
        exact ⟨hp, r, hrm, hrp, hru⟩
      · rintro ⟨hp, r, hrm, hrp, hru⟩
        exact ⟨hp, r, hrm, hru, hrp⟩

/-- C8 (witness): bob, a member of the project `p1` in `db1`. -/
theorem member_project_scope_witness :
    ({ user := some bob } : Req).user = some bob ∧ bob.role = some "member" ∧
    env0.fails 0 = false ∧ env0.fails 1 = false ∧
    ∃ ids : List Id,
      (∀ pid, pid ∈ ids ↔
        ∃ r ∈ db1.project_members, r.user_id = bob.id ∧ r.project_id = pid) ∧
      (getProjectsRoute env0 db1 { user := some bob }).log =
        (if ids = [] then [Call.selectProjectMembers (membershipLookup bob)]
         else [Call.selectProjectMembers (membershipLookup bob),
               Call.selectProjects [.inId ids]]) ∧
      ∃ ps : List Project,
        (getProjectsRoute env0 db1 { user := some bob }).response =
          some { status := 200, payload := .projects ps } ∧
        ∀ p, p ∈ ps ↔
          (p ∈ db1.projects ∧
            ∃ r ∈ db1.project_members, r.project_id = p.id ∧ r.user_id = bob.id) :=
  ⟨rfl, rfl, rfl, rfl,
   member_project_scope env0 db1 { user := some bob } bob rfl rfl rfl rfl⟩

/-- Every project that the list answers to an identity that is not admin has a
membership row of that identity. -/
theorem getProjects_nonAdmin_sound (env : Env) (db : Datastore) (req : Req) (u : User)
    (hu : req.user = some u) (hna : u.notAdmin = true) (ps : List Project)
    (h : (getProjects env db req).response = some { status := 200, payload := .projects ps })
    (p : Project) (hp : p ∈ ps) :
    p ∈ db.projects ∧ ∃ r ∈ db.project_members, r.project_id = p.id ∧ r.user_id = u.id := by
  rw [getProjects_nonAdmin env db req u hu hna] at h
  by_cases hc : env.fails 0 = true ∨ db.memberProjectIds u = []
  · rw [if_pos hc] at h
    simp only [reply, Option.some.injEq, Response.mk.injEq, Payload.projects.injEq,
      true_and] at h
    subst h
    cases hp
  · rw [if_neg hc] at h
    by_cases hg : env.fails 1 = true
    · rw [if_pos hg] at h
      simp [reply] at h
    · rw [if_neg hg] at h
      simp only [reply, Option.some.injEq, Response.mk.injEq, Payload.projects.injEq,
        true_and] at h
      subst h
      obtain ⟨hp1, hp2⟩ := (mem_matchProjects_inId db _ p).mp hp
      obtain ⟨r, hrm, hru, hrp⟩ := (mem_memberProjectIds db u p.id).mp hp2
      exact ⟨hp1, r, hrm, hrp, hru⟩

/-- Every task that the list answers to an identity that is not admin belongs
to a project with a membership row of that identity. -/
theorem getTasks_nonAdmin_sound (env : Env) (db : Datastore) (req : Req) (u : User)
    (hu : req.user = some u) (hna : u.notAdmin = true) (ts : List Task)
    (h : (getTasks env db req).response = some { status := 200, payload := .tasks ts })
    (t : Task) (ht : t ∈ ts) :
    t ∈ db.tasks ∧
      ∃ r ∈ db.project_members, t.project_id = some r.project_id ∧ r.user_id = u.id := by
  rw [getTasks_nonAdmin env db req u hu hna] at h
  by_cases hc : env.fails 0 = true ∨ db.memberProjectIds u = []
  · rw [if_pos hc] at h
    simp only [reply, Option.some.injEq, Response.mk.injEq, Payload.tasks.injEq,
      true_and] at h
    subst h
    cases ht
  · rw [if_neg hc] at h
    by_cases hg : env.fails 1 = true
    · rw [if_pos hg] at h
      simp [reply] at h
    · rw [if_neg hg] at h
      simp only [reply, Option.some.injEq, Response.mk.injEq, Payload.tasks.injEq,
        true_and] at h
      subst h
      obtain ⟨ht1, pid, hpid, htp⟩ := (mem_matchTasks_scoped db _ _ t).mp ht
      obtain ⟨r, hrm, hru, hrp⟩ := (mem_memberProjectIds db u pid).mp hpid
      refine ⟨?_, r, hrm, ?_, hru⟩
      · simp only [Datastore.matchTasks, List.mem_filter] at ht1
        exact ht1.1
      · rw [htp, hrp]

/-- C6 (counterexample): carol is a manager without membership rows; the
datastore holds a project and a task, and both lists answer her with the empty
list after looking up her memberships. -/
theorem manager_without_membership_gets_nothing :
    carol.role = some "manager" ∧ site ∈ db0.projects ∧ report ∈ db0.tasks ∧
    getProjectsRoute env0 db0 { user := some carol } =
      reply 200 (.projects []) db0 [Call.selectProjectMembers [.eqUserId "u3"]] ∧
    getTasksRoute env0 db0 { user := some carol } =
      reply 200 (.tasks []) db0 [Call.selectProjectMembers [.eqUserId "u3"]] := by
  refine ⟨rfl, ?_, ?_, rfl, rfl⟩
  · simp [db0]
  · simp [db0]

/-- C6 (amended): for an authenticated manager the project list and the task
list are scoped as they are for a member.  The outcome is the one the same
identity would get with role member; every project answered has a membership
row of the manager and every task answered belongs to such a project; a manager
without membership rows gets the empty list from both. -/
theorem manager_lists_scoped_like_member (env : Env) (db : Datastore) (req : Req) (u : User)
    (hu : req.user = some u) (hr : u.role = some "manager") :
    getProjectsRoute env db req =
      getProjectsRoute env db { req with user := some { u with role := some "member" } } ∧
    getTasksRoute env db req =
      getTasksRoute env db { req with user := some { u with role := some "member" } } ∧
    (∀ ps, (getProjectsRoute env db req).response =
        some { status := 200, payload := .projects ps } →
      ∀ p ∈ ps, ∃ r ∈ db.project_members, r.project_id = p.id ∧ r.user_id = u.id) ∧
    (∀ ts, (getTasksRoute env db req).response =
        some { status := 200, payload := .tasks ts } →
      ∀ t ∈ ts, ∃ r ∈ db.project_members,
        t.project_id = some r.project_id ∧ r.user_id = u.id) ∧
    ((∀ r ∈ db.project_members, r.user_id ≠ u.id) →
      getProjectsRoute env db req =
        reply 200 (.projects []) db [Call.selectProjectMembers (membershipLookup u)] ∧
      getTasksRoute env db req =
        reply 200 (.tasks []) db [Call.selectProjectMembers (membershipLookup u)]) := by
  have hna := notAdmin_of_role u (Or.inr hr)
  have hna2 : ({ u with role := some "member" } : User).notAdmin = true :=
    notAdmin_of_role _ (Or.inl rfl)
  have hp := getProjects_nonAdmin env db req u hu hna
  have ht := getTasks_nonAdmin env db req u hu hna
  refine ⟨?_, ?_, ?_, ?_, ?_⟩
  · rw [getProjectsRoute, runRoute_requireAuth _ _ _ _ u hu, runRoute_requireAuth _ _ _ _ _ rfl,
      hp, getProjects_nonAdmin env db _ _ rfl hna2]
    rfl
  · rw [getTasksRoute, runRoute_requireAuth _ _ _ _ u hu, runRoute_requireAuth _ _ _ _ _ rfl,
      ht, getTasks_nonAdmin env db _ _ rfl hna2]
    rfl
  · intro ps h p hpm
    rw [getProjectsRoute, runRoute_requireAuth _ _ _ _ u hu] at h
    exact (getProjects_nonAdmin_sound env db req u hu hna ps h p hpm).2
  · intro ts h t htm
    rw [getTasksRoute, runRoute_requireAuth _ _ _ _ u hu] at h
    exact (getTasks_nonAdmin_sound env db req u hu hna ts h t htm).2
  · intro hnone
    have hc : env.fails 0 = true ∨ db.memberProjectIds u = [] :=
      Or.inr (memberProjectIds_eq_nil db u hnone)
    constructor
    · rw [getProjectsRoute, runRoute_requireAuth _ _ _ _ u hu, hp, if_pos hc]
    · rw [getTasksRoute, runRoute_requireAuth _ _ _ _ u hu, ht, if_pos hc]

/-- C6 (witness): carol, the manager of the counterexample. -/
theorem manager_lists_scoped_like_member_witness :
    ({ user := some carol } : Req).user = some carol ∧ carol.role = some "manager" ∧
    getProjectsRoute env0 db0 { user := some carol } =
      getProjectsRoute env0 db0
        { user := some { carol with role := some "member" } } :=
  ⟨rfl, rfl,
   (manager_lists_scoped_like_member env0 db0 { user := some carol } carol rfl rfl).1⟩

/-- At most one row passes a test that no two rows of the table can both pass. -/
theorem filter_length_le_one {α : Type} (R : α → α → Prop) (f : α → Bool)
    (hR : ∀ a b, R a b → f a = true → f b = true → False) (l : List α)
    (hl : l.Pairwise R) : (l.filter f).length ≤ 1 := by
  induction l with
  | nil => simp
  | cons a t ih =>
    rw [List.pairwise_cons] at hl
    by_cases hfa : f a = true
    · have ht : t.filter f = [] := by
        apply List.eq_nil_iff_forall_not_mem.mpr
        intro b hb
        rw [List.mem_filter] at hb
        exact hR a b (hl.1 b hb.1) hfa hb.2
      simp [List.filter_cons, hfa, ht]
    · simp only [List.filter_cons, hfa]
      exact ih hl.2

/-- A list of at most one element is determined by any of its members. -/
theorem eq_singleton_of_mem {α : Type} (l : List α) (x : α) (hx : x ∈ l)
    (hl : l.length ≤ 1) : l = [x] := by
  match l, hx, hl with
  | [y], hx, _ =>
    rw [List.mem_singleton] at hx
    rw [hx]
  | _ :: _ :: _, _, hl =>
    simp at hl

/-- The select by primary key finds a stored project. -/
theorem matchProjects_eqId (db : Datastore) (p : Project) (hp : p ∈ db.projects)
    (hpk : db.projectIdsUnique) : db.matchProjects [.eqId p.id] = [p] := by
  apply eq_singleton_of_mem
  · simp [Datastore.matchProjects, ProjectFilter.holds, hp]
  · unfold Datastore.matchProjects
    apply filter_length_le_one (fun a b : Project => a.id ≠ b.id) _ _ db.projects hpk
    intro a b hab ha hb
    simp [ProjectFilter.holds] at ha hb
    exact hab (ha.trans hb.symm)

/-- The membership check of lines 364-369 finds at most one row. -/
theorem matchMembers_pair_length (db : Datastore) (pid uid : Id)
    (hmu : db.membershipUnique) :
    (db.matchMembers [.eqProjectId pid, .eqUserId uid]).length ≤ 1 := by
  unfold Datastore.matchMembers
  apply filter_length_le_one
    (fun a b : Membership => ¬ (a.project_id = b.project_id ∧ a.user_id = b.user_id))
    _ _ db.project_members hmu
  intro a b hab ha hb
  simp [MemberFilter.holds] at ha hb
  exact hab ⟨ha.1.trans hb.1.symm, ha.2.trans hb.2.symm⟩

/-- Rows answered by the membership check. -/
theorem mem_matchMembers_pair (db : Datastore) (pid uid : Id) (r : Membership) :
    r ∈ db.matchMembers [.eqProjectId pid, .eqUserId uid] ↔
      r ∈ db.project_members ∧ r.project_id = pid ∧ r.user_id = uid := by
  simp [Datastore.matchMembers, MemberFilter.holds]

/-- C9: for a stored project `p` and an authenticated identity `u`, in a
datastore that keeps its key constraints and answers the requests, the
single-project read answers the project if `u` is admin; otherwise it answers
the project if a membership row for `p` and `u` exists, and 403 "Access denied"
without the project if none exists. -/
theorem single_project_read (env : Env) (db : Datastore) (req : Req) (u : User) (p : Project)
    (hu : req.user = some u) (hp : p ∈ db.projects) (hid : req.id = p.id)
    (hpk : db.projectIdsUnique) (hmu : db.membershipUnique)
    (h0 : env.fails 0 = false) (h1 : env.fails 1 = false) :
    (u.role = some "admin" →
      (getProjectByIdRoute env db req).response =
        some { status := 200, payload := .project p }) ∧
    (u.role ≠ some "admin" →
      ((∃ r ∈ db.project_members, r.project_id = p.id ∧ r.user_id = u.id) →
        (getProjectByIdRoute env db req).response =
          some { status := 200, payload := .project p }) ∧
      ((¬ ∃ r ∈ db.project_members, r.project_id = p.id ∧ r.user_id = u.id) →
        (getProjectByIdRoute env db req).response =
          some { status := 403, payload := .error "Access denied" })) := by
  have hsel : awaitSingle (env.fails 0) (db.matchProjects [ProjectFilter.eqId req.id]) =
      { data := some p, error := false } := by
    rw [hid, matchProjects_eqId db p hp hpk, h0]
    rfl
  rw [getProjectByIdRoute, runRoute_requireAuth _ _ _ _ u hu]
  simp only [getProjectById, hsel, hu, Bool.false_eq_true, if_false]
  constructor
  · intro hr
    have hna : u.notAdmin = false := by simp [User.notAdmin, hr]
    simp [hna, reply, projectPayload]
  · intro hr
    have hna : u.notAdmin = true := by simp [User.notAdmin, hr]
    simp only [hna, if_true, h1, hid]
    constructor
    · rintro ⟨r, hrm, hrp, hru⟩
      have hmem : r ∈ db.matchMembers [.eqProjectId p.id, .eqUserId u.id] :=
        (mem_matchMembers_pair db p.id u.id r).mpr ⟨hrm, hrp, hru⟩
      rw [eq_singleton_of_mem _ r hmem (matchMembers_pair_length db p.id u.id hmu)]
      simp [awaitSingle, reply, projectPayload]
    · intro hno
      have hnil : db.matchMembers [.eqProjectId p.id, .eqUserId u.id] = [] := by
        apply List.eq_nil_iff_forall_not_mem.mpr
        intro r hr
        obtain ⟨hrm, hrp, hru⟩ := (mem_matchMembers_pair db p.id u.id r).mp hr
        exact hno ⟨r, hrm, hrp, hru⟩
      rw [hnil]
      simp [awaitSingle, reply]

/-- C9 (witness): in `db1` bob has a membership row for the project `p1` and is
answered the project; carol has none and is answered 403. -/
theorem single_project_read_witness :
    ({ user := some bob, id := "p1" } : Req).user = some bob ∧ site ∈ db1.projects ∧
    db1.projectIdsUnique ∧ db1.membershipUnique ∧ bob.role ≠ some "admin" ∧
    (∃ r ∈ db1.project_members, r.project_id = site.id ∧ r.user_id = bob.id) ∧
    (getProjectByIdRoute env0 db1 { user := some bob, id := "p1" }).response =
      some { status := 200, payload := .project site } ∧
    (getProjectByIdRoute env0 db1 { user := some carol, id := "p1" }).response =
      some { status := 403, payload := .error "Access denied" } :=
  ⟨rfl, by decide, by decide, by decide, by decide, by decide,
   ((single_project_read env0 db1 { user := some bob, id := "p1" } bob site rfl (by decide) rfl
      (by decide) (by decide) rfl rfl).2 (by decide)).1 (by decide),
   ((single_project_read env0 db1 { user := some carol, id := "p1" } carol site rfl (by decide)
      rfl (by decide) (by decide) rfl rfl).2 (by decide)).2 (by decide)⟩

/-- C2 (failing input): bob is a member and the task `t1` is assigned to alice;
bob's `PUT /api/tasks/t1` is answered 200, the update is issued and the stored
task is changed. -/
theorem member_updates_task_of_another :
    bob.role = some "member" ∧ report.assigned_to ≠ some bob.id ∧
    putTaskRoute env0 db0 { user := some bob, id := "t1", body := { status := .val "pending" } } =
      reply 200
        (.task { report with
          status := some "pending", completed_at := none, updated_at := some env0.now })
        { db0 with tasks := [{ report with
          status := some "pending", completed_at := none, updated_at := some env0.now }] }
        [Call.updateTask [.eqId "t1"] (updateData env0 { status := .val "pending" })] := by
  refine ⟨rfl, by decide, rfl⟩

/-- The update-task route never looks at who is asking: every authenticated
identity gets the outcome of every other. -/
theorem putTask_ignores_identity (env : Env) (db : Datastore) (req : Req) (u v : User) :
    putTaskRoute env db { req with user := some u } =
      putTaskRoute env db { req with user := some v } := by
  rw [putTaskRoute, runRoute_requireAuth _ _ _ _ u rfl, runRoute_requireAuth _ _ _ _ v rfl]
  rfl

/-- C10 (failing input): the stored task `t1` is completed and has its
`completed_at`; an update that only sends a title is answered 200 and stores
the task with status completed and `completed_at = null`. -/
theorem update_without_status_clears_completed_at :
    report.completedAtMatchesStatus ∧
    putTaskRoute env0 db0
        { user := some alice, id := "t1", body := { title := .val "Write the report" } } =
      reply 200
        (.task { report with
          title := some "Write the report", completed_at := none,
          updated_at := some env0.now })
        { db0 with tasks := [{ report with
          title := some "Write the report", completed_at := none,
          updated_at := some env0.now }] }
        [Call.updateTask [.eqId "t1"] (updateData env0 { title := .val "Write the report" })] ∧
    ¬ ({ report with
          title := some "Write the report", completed_at := none,
          updated_at := some env0.now } : Task).completedAtMatchesStatus := by
  refine ⟨by decide, rfl, by decide⟩

/-- When the body carries a status (a value or `null`), the row written by the
update satisfies the invariant, whatever the stored row was. -/
theorem update_with_status_keeps_invariant (env : Env) (b : Body) (t : Task)
    (hs : b.status ≠ .absent) :
    ((updateData env b).apply t).completedAtMatchesStatus := by
  unfold Task.completedAtMatchesStatus
  cases hst : b.status with
  | absent => exact absurd hst hs
  | null => simp [updateData, TaskPatch.apply, Field.toPatch, hst]
  | val a =>
    by_cases hc : a = "completed"
    · simp [updateData, TaskPatch.apply, Field.toPatch, hst, hc]
    · simp [updateData, TaskPatch.apply, Field.toPatch, hst, hc]

/-- An instance of `update_with_status_keeps_invariant`: the completed task of
the example, sent status completed again. -/
theorem update_with_status_keeps_invariant_witness :
    ({ status := .val "completed" } : Body).status ≠ .absent ∧
    ((updateData env0 { status := .val "completed" }).apply report).completedAtMatchesStatus :=
  ⟨by decide, update_with_status_keeps_invariant env0 _ report (by decide)⟩

/-- Writing a patch to the rows with a given id: the rows with that id after
the write are the patched rows with that id before it. -/
theorem filter_eqId_map_apply (patch : TaskPatch) (id : Id) (l : List Task) :
    (l.map (fun t => if [TaskFilter.eqId id].all (fun f => f.holds t) then patch.apply t
      else t)).filter (fun t => [TaskFilter.eqId id].all (fun f => f.holds t)) =
    (l.filter (fun t => [TaskFilter.eqId id].all (fun f => f.holds t))).map patch.apply := by
  induction l with
  | nil => rfl
  | cons a t ih =>
    by_cases h : a.id = id
    · have h2 : (patch.apply a).id = id := h
      simp [List.filter_cons, TaskFilter.holds, h, h2] at ih ⊢
      exact ih
    · simp [List.filter_cons, TaskFilter.holds, h] at ih ⊢
      exact ih

/-- The update of the one stored task with the given id, when the request is
answered: the answer is the patched row, and it is the row stored under that id
afterwards. -/
theorem updateTask_single (db : Datastore) (id : Id) (patch : TaskPatch) (t : Task)
    (ht : db.matchTasks [.eqId id] = [t]) :
    (db.updateTask false [.eqId id] patch).1 = { data := some (patch.apply t), error := false } ∧
    (db.updateTask false [.eqId id] patch).2.matchTasks [.eqId id] = [patch.apply t] := by
  have hr : awaitSingle false ((db.matchTasks [.eqId id]).map patch.apply) =
      { data := some (patch.apply t), error := false } := by
    rw [ht]
    rfl
  constructor
  · simp only [Datastore.updateTask, hr]
  · simp only [Datastore.updateTask, hr, Bool.false_eq_true, if_false]
    have := filter_eqId_map_apply patch id db.tasks
    simp only [Datastore.matchTasks] at ht ⊢
    rw [this, ht]
    rfl

/-- The update-task route on a stored task, for an authenticated caller and an
answered request. -/
theorem putTaskRoute_stored (env : Env) (db : Datastore) (req : Req) (u : User) (t : Task)
    (hu : req.user = some u) (ht : db.matchTasks [.eqId req.id] = [t])
    (h0 : env.fails 0 = false) :
    putTaskRoute env db req =
      reply 200 (.task ((updateData env req.body).apply t))
        (db.updateTask false [.eqId req.id] (updateData env req.body)).2
        [Call.updateTask [.eqId req.id] (updateData env req.body)] := by
  rw [putTaskRoute, runRoute_requireAuth _ _ _ _ u hu]
  have h := (updateTask_single db req.id (updateData env req.body) t ht).1
  simp only [putTask, h0]
  rw [show db.updateTask false [TaskFilter.eqId req.id] (updateData env req.body) =
    ((db.updateTask false [TaskFilter.eqId req.id] (updateData env req.body)).1,
     (db.updateTask false [TaskFilter.eqId req.id] (updateData env req.body)).2) from rfl]
  simp only [h, Bool.false_eq_true, if_false]

/-- C11: an update whose body has status "completed" writes a non-null
`completed_at` (the time of the update), and a following update whose body has
any other status writes `completed_at = null`: for a stored task and answered
requests the first update stores the task with `completed_at` set and the
second stores it with `completed_at = null`. -/
theorem completed_at_follows_status (envA envB : Env) (db : Datastore) (u v : User) (id : Id)
    (t : Task) (bA bB : Body)
    (ht : db.matchTasks [.eqId id] = [t])
    (hA : envA.fails 0 = false) (hB : envB.fails 0 = false)
    (hbA : bA.status = .val "completed") (hbB : bB.status ≠ .val "completed") :
    (updateData envA bA).completed_at = some (some envA.now) ∧
    (updateData envB bB).completed_at = some none ∧
    ∃ tA tB : Task, ∃ dbA dbB : Datastore,
      putTaskRoute envA db { user := some u, id := id, body := bA } =
        reply 200 (.task tA) dbA [Call.updateTask [.eqId id] (updateData envA bA)] ∧
      dbA.matchTasks [.eqId id] = [tA] ∧ tA.completed_at = some envA.now ∧
      putTaskRoute envB dbA { user := some v, id := id, body := bB } =
        reply 200 (.task tB) dbB [Call.updateTask [.eqId id] (updateData envB bB)] ∧
      dbB.matchTasks [.eqId id] = [tB] ∧ tB.completed_at = none := by
  have hcA : (updateData envA bA).completed_at = some (some envA.now) := by
    simp [updateData, hbA]
  have hcB : (updateData envB bB).completed_at = some none := by
    simp [updateData, hbB]
  refine ⟨hcA, hcB, (updateData envA bA).apply t,
    (updateData envB bB).apply ((updateData envA bA).apply t),
    (db.updateTask false [.eqId id] (updateData envA bA)).2,
    ((db.updateTask false [.eqId id] (updateData envA bA)).2.updateTask false [.eqId id]
      (updateData envB bB)).2, ?_, ?_, ?_, ?_, ?_, ?_⟩
  · exact putTaskRoute_stored envA db _ u t rfl ht hA
  · exact (updateTask_single db id _ t ht).2
  · simp [TaskPatch.apply, hcA]
  · exact putTaskRoute_stored envB _ _ v _ rfl (updateTask_single db id _ t ht).2 hB
  · exact (updateTask_single _ id _ _ (updateTask_single db id _ t ht).2).2
  · simp [TaskPatch.apply, hcB]

/-- C11 (witness): the stored task `t1`, set to completed and then to pending. -/
theorem completed_at_follows_status_witness :
    db0.matchTasks [.eqId "t1"] = [report] ∧ env0.fails 0 = false ∧
    ({ status := .val "completed" } : Body).status = .val "completed" ∧
    ({ status := .val "pending" } : Body).status ≠ .val "completed" ∧
    (updateData env0 { status := .val "completed" }).completed_at = some (some env0.now) ∧
    (updateData env0 { status := .val "pending" }).completed_at = some none :=
  ⟨by decide, rfl, rfl, by decide,
   (completed_at_follows_status env0 env0 db0 alice bob "t1" report
      { status := .val "completed" } { status := .val "pending" }
      (by decide) rfl rfl rfl (by decide)).1,
   (completed_at_follows_status env0 env0 db0 alice bob "t1" report
      { status := .val "completed" } { status := .val "pending" }
      (by decide) rfl rfl rfl (by decide)).2.1⟩

/-- No stored identity has the email: the lookup by email yields no row. -/
theorem usersByEmail_eq_nil (db : Datastore) (email : String)
    (h : ∀ x ∈ db.users, x.email ≠ email) : db.usersByEmail email = [] := by
  apply List.eq_nil_iff_forall_not_mem.mpr
  intro x hx
  simp only [Datastore.usersByEmail, List.mem_filter, beq_iff_eq] at hx
  exact h x hx.1 hx.2

/-- The strategy when the lookup is answered without rows. -/
theorem verify_not_found (c : Crypto) (env : Env) (db : Datastore) (username password : String)
    (h0 : env.fails 0 = false) (hno : db.usersByEmail username = []) :
    ∃ m log, verify c env db username password = (.refused m, log) := by
  unfold verify
  by_cases he : username = "" ∨ password = ""
  · exact ⟨_, _, if_pos he⟩
  · refine ⟨"User not found", [Call.selectUsersByEmail username], ?_⟩
    simp [he, h0, hno, awaitRows]

/-- The strategy when the lookup is answered and finds a row first. -/
theorem verify_found (c : Crypto) (env : Env) (db : Datastore) (username password : String)
    (u : User) (rest : List User) (hn : ¬ (username = "" ∨ password = ""))
    (h0 : env.fails 0 = false) (hfound : db.usersByEmail username = u :: rest) :
    verify c env db username password =
      (match c.compare password u.password with
       | none => (.error, [Call.selectUsersByEmail username])
       | some valid =>
         if valid then (.user u, [Call.selectUsersByEmail username])
         else (.refused "Invalid password", [Call.selectUsersByEmail username])) := by
  unfold verify
  simp [hn, h0, hfound, awaitRows]

/-- What `POST /login` does once the strategy refused. -/
theorem login_of_refused (c : Crypto) (env : Env) (db : Datastore) (body : Credentials)
    (m : String) (log : List Call)
    (h : verify c env db body.username body.password = (.refused m, log)) :
    login c env db body =
      { response := some (.loginError "Invalid email or password"), session := none,
        db := db, log := log } := by
  simp [login, h]

/-- C12: a login with an email that matches no stored identity and a login
with the email of a stored identity and a secret that does not verify get the
same response, the redirect with "Invalid email or password", and neither binds
a session (the datastore answering both lookups). -/
theorem login_failures_indistinguishable (c : Crypto) (envA envB : Env) (db : Datastore)
    (bA bB : Credentials) (u : User) (rest : List User)
    (hA : envA.fails 0 = false) (hB : envB.fails 0 = false)
    (hno : ∀ x ∈ db.users, x.email ≠ bA.username)
    (hfound : db.usersByEmail bB.username = u :: rest)
    (hbad : c.compare bB.password u.password = some false) :
    (login c envA db bA).response = some (.loginError "Invalid email or password") ∧
    (login c envB db bB).response = some (.loginError "Invalid email or password") ∧
    (login c envA db bA).response = (login c envB db bB).response ∧
    (login c envA db bA).session = none ∧ (login c envB db bB).session = none := by
  obtain ⟨m, log, hv⟩ := verify_not_found c envA db bA.username bA.password hA
    (usersByEmail_eq_nil db _ hno)
  have hlA := login_of_refused c envA db bA m log hv
  have hlB : ∃ m2 log2, verify c envB db bB.username bB.password = (.refused m2, log2) := by
    by_cases he : bB.username = "" ∨ bB.password = ""
    · exact ⟨_, _, by unfold verify; exact if_pos he⟩
    · refine ⟨"Invalid password", [Call.selectUsersByEmail bB.username], ?_⟩
      rw [verify_found c envB db _ _ u rest he hB hfound, hbad]
      rfl
  obtain ⟨m2, log2, hv2⟩ := hlB
  have hlB2 := login_of_refused c envB db bB m2 log2 hv2
  rw [hlA, hlB2]
  exact ⟨rfl, rfl, rfl, rfl, rfl⟩

/-- C12 (witness): an unknown email, and alice with a wrong password. -/
theorem login_failures_indistinguishable_witness :
    env0.fails 0 = false ∧ (∀ x ∈ db0.users, x.email ≠ "nonexistent@x.com") ∧
    db0.usersByEmail "alice@x.com" = [alice] ∧
    crypto0.compare "wrong" alice.password = some false ∧
    (login crypto0 env0 db0 { username := "nonexistent@x.com", password := "wrong" }).response =
      (login crypto0 env0 db0 { username := "alice@x.com", password := "wrong" }).response :=
  ⟨rfl, by decide, by decide, by decide,
   (login_failures_indistinguishable crypto0 env0 env0 db0
      { username := "nonexistent@x.com", password := "wrong" }
      { username := "alice@x.com", password := "wrong" } alice [] rfl rfl
      (by decide) (by decide) (by decide)).2.2.1⟩

/-- C13 (counterexample): alice is stored with status suspended; her login with
a password that verifies binds the session to her and redirects to `/secrets`. -/
theorem suspended_identity_logs_in :
    alice ∈ db0.users ∧ alice.status = some "suspended" ∧
    crypto0.compare "secret" alice.password = some true ∧
    login crypto0 env0 db0 { username := "alice@x.com", password := "secret" } =
      { response := some .secrets, session := some alice, db := db0,
        log := [Call.selectUsersByEmail "alice@x.com"] } := by
  refine ⟨by decide, rfl, by decide, by decide⟩

/-- C13 (amended): login does not read the status.  For a stored identity, with
status suspended or any other, a login whose secret verifies binds the session
to that identity and redirects to `/secrets` (the lookup and `req.logIn`
succeeding). -/
theorem login_ignores_status (c : Crypto) (env : Env) (db : Datastore) (body : Credentials)
    (u : User) (rest : List User)
    (hn : ¬ (body.username = "" ∨ body.password = ""))
    (h0 : env.fails 0 = false) (hl : c.logInFails = false)
    (hfound : db.usersByEmail body.username = u :: rest)
    (hok : c.compare body.password u.password = some true) :
    login c env db body =
      { response := some .secrets, session := some u, db := db,
        log := [Call.selectUsersByEmail body.username] } := by
  have hv := verify_found c env db _ _ u rest hn h0 hfound
  rw [hok] at hv
  simp [login, hv, hl]

/-- C13 (witness): alice, whose status is suspended. -/
theorem login_ignores_status_witness :
    alice.status = some "suspended" ∧ db0.usersByEmail "alice@x.com" = [alice] ∧
    (login crypto0 env0 db0 { username := "alice@x.com", password := "secret" }).session =
      some alice :=
  ⟨rfl, by decide,
   congrArg AuthOutcome.session
     (login_ignores_status crypto0 env0 db0 { username := "alice@x.com", password := "secret" }
       alice [] (by decide) rfl rfl (by decide) (by decide))⟩

/-- C14 (counterexample): eve is stored without a digest, so the comparison
itself calls back with an error; her login is redirected with "Authentication
error occurred".  bob's login with a wrong secret, and zoe's login against a
stored string that is no digest, are redirected with "Invalid email or
password". -/
theorem compare_error_is_distinguishable :
    eve.password = none ∧ crypto0.compare "secret" eve.password = none ∧
    crypto0.compare "wrong" bob.password = some false ∧
    crypto0.compare "secret" zoe.password = some false ∧
    (login crypto0 env0 db2 { username := "eve@x.com", password := "secret" }).response =
      some (.loginError "Authentication error occurred") ∧
    (login crypto0 env0 db2 { username := "bob@x.com", password := "wrong" }).response =
      some (.loginError "Invalid email or password") ∧
    (login crypto0 env0 db2 { username := "zoe@x.com", password := "secret" }).response =
      some (.loginError "Invalid email or password") ∧
    (login crypto0 env0 db2 { username := "eve@x.com", password := "secret" }).response ≠
      (login crypto0 env0 db2 { username := "bob@x.com", password := "wrong" }).response := by
  decide

/-- C14 (amended): when the credential comparison itself calls back with an
error, login binds no session and leaves the datastore alone, and it answers
with the redirect that carries "Authentication error occurred"; this is not
the redirect of a wrong secret.  When the comparison calls back with `false`,
as it does for a wrong secret and for a stored string that is no digest, the
redirect carries "Invalid email or password". -/
theorem login_compare_error (c : Crypto) (env : Env) (db : Datastore) (body : Credentials)
    (u : User) (rest : List User)
    (hn : ¬ (body.username = "" ∨ body.password = ""))
    (h0 : env.fails 0 = false)
    (hfound : db.usersByEmail body.username = u :: rest) :
    (c.compare body.password u.password = none →
      login c env db body =
        { response := some (.loginError "Authentication error occurred"), session := none,
          db := db, log := [Call.selectUsersByEmail body.username] } ∧
      (login c env db body).response ≠ some (.loginError "Invalid email or password")) ∧
    (c.compare body.password u.password = some false →
      login c env db body =
        { response := some (.loginError "Invalid email or password"), session := none,
          db := db, log := [Call.selectUsersByEmail body.username] }) := by
  have hv := verify_found c env db _ _ u rest hn h0 hfound
  constructor
  · intro herr
    rw [herr] at hv
    have hl : login c env db body =
        { response := some (.loginError "Authentication error occurred"), session := none,
          db := db, log := [Call.selectUsersByEmail body.username] } := by
      simp [login, hv]
    refine ⟨hl, ?_⟩
    rw [hl]
    simp
  · intro hfalse
    rw [hfalse] at hv
    simp [login, hv]

/-- C14 (witness): eve, who is stored without a digest, and zoe, whose stored
string is no digest. -/
theorem login_compare_error_witness :
    db2.usersByEmail "eve@x.com" = [eve] ∧ crypto0.compare "secret" eve.password = none ∧
    db2.usersByEmail "zoe@x.com" = [zoe] ∧
    crypto0.compare "secret" zoe.password = some false ∧
    (login crypto0 env0 db2 { username := "eve@x.com", password := "secret" }).response ≠
      some (.loginError "Invalid email or password") ∧
    (login crypto0 env0 db2 { username := "zoe@x.com", password := "secret" }).response =
      some (.loginError "Invalid email or password") :=
  ⟨by decide, by decide, by decide, by decide,
   ((login_compare_error crypto0 env0 db2 { username := "eve@x.com", password := "secret" }
      eve [] (by decide) rfl (by decide)).1 (by decide)).2,
   congrArg AuthOutcome.response
     ((login_compare_error crypto0 env0 db2 { username := "zoe@x.com", password := "secret" }
        zoe [] (by decide) rfl (by decide)).2 (by decide))⟩

/-- The register route, branch by branch. -/
theorem register_eq (c : Crypto) (env : Env) (db : Datastore) (body : Credentials) :
    register c env db body =
      (if env.fails 0 = true ∨ db.usersByEmail body.username ≠ [] then
        { response := some .login, session := none, db := db,
          log := [Call.selectUsersByEmail body.username] }
       else
        match c.hash body.password with
        | none =>
          { response := none, session := none, db := db,
            log := [Call.selectUsersByEmail body.username] }
        | some hash =>
          if env.fails 1 = true then
            { response := some .login, session := none, db := db,
              log := [Call.selectUsersByEmail body.username,
                      Call.insertUser (newUser env body.username hash)] }
          else
            { response := some .secrets
              session := if c.logInFails then none
                else some (newUser env body.username hash)
              db := { db with users := db.users ++ [newUser env body.username hash] }
              log := [Call.selectUsersByEmail body.username,
                      Call.insertUser (newUser env body.username hash)] }) := by
  unfold register
  cases h0 : env.fails 0
  · cases hl : db.usersByEmail body.username with
    | nil =>
      simp only [awaitRows, hl, Bool.false_eq_true, if_false, Option.getD_some, List.length_nil,
        gt_iff_lt, lt_self_iff_false, false_or, ne_eq, not_true_eq_false]
      cases c.hash body.password with
      | none => rfl
      | some hash =>
        cases h1 : env.fails 1 <;> simp
    | cons x xs =>
      simp [awaitRows, hl]
  · simp [awaitRows]

/-- A stored identity has the email: the lookup by email yields a row. -/
theorem usersByEmail_ne_nil (db : Datastore) (email : String)
    (h : ∃ u ∈ db.users, u.email = email) : db.usersByEmail email ≠ [] := by
  obtain ⟨u, hu, he⟩ := h
  intro hnil
  have : u ∈ db.usersByEmail email := by
    simp [Datastore.usersByEmail, hu, he]
  rw [hnil] at this
  cases this

/-- Every insert that register issues is `newUser` of the presented email and
the digest that the hash primitive returned. -/
theorem register_insert_row (c : Crypto) (env : Env) (db : Datastore) (body : Credentials)
    (row : User) (h : Call.insertUser row ∈ (register c env db body).log) :
    ∃ hash, c.hash body.password = some hash ∧ row = newUser env body.username hash := by
  rw [register_eq] at h
  by_cases hc : env.fails 0 = true ∨ db.usersByEmail body.username ≠ []
  · rw [if_pos hc] at h
    simp at h
  · rw [if_neg hc] at h
    cases hh : c.hash body.password with
    | none =>
      rw [hh] at h
      simp at h
    | some hash =>
      rw [hh] at h
      refine ⟨hash, rfl, ?_⟩
      by_cases h1 : env.fails 1 = true
      · simpa [h1] using h
      · simpa [h1] using h

/-- Every identity stored after register was stored before it or is `newUser`
of the presented email and the digest that the hash primitive returned. -/
theorem register_users (c : Crypto) (env : Env) (db : Datastore) (body : Credentials) :
    (register c env db body).db = db ∨
    ∃ hash, c.hash body.password = some hash ∧ db.usersByEmail body.username = [] ∧
      (register c env db body).db =
        { db with users := db.users ++ [newUser env body.username hash] } := by
  rw [register_eq]
  by_cases hc : env.fails 0 = true ∨ db.usersByEmail body.username ≠ []
  · rw [if_pos hc]
    exact Or.inl rfl
  · rw [if_neg hc]
    have hnil : db.usersByEmail body.username = [] := by
      by_contra hne
      exact hc (Or.inr hne)
    cases hh : c.hash body.password with
    | none => exact Or.inl rfl
    | some hash =>
      by_cases h1 : env.fails 1 = true
      · left
        show (if env.fails 1 = true then _ else _ : AuthOutcome).db = db
        rw [if_pos h1]
      · right
        refine ⟨hash, rfl, hnil, ?_⟩
        show (if env.fails 1 = true then _ else _ : AuthOutcome).db = _
        rw [if_neg h1]

/-- C15: whatever the email, the secret and the rest of the body (a `role` or
`status` field in it is not read), the row that register inserts has role
member and status active, and its credential is the digest returned by the hash
primitive for the secret; it differs from the secret whenever the primitive
never returns its input.  When the email is free and the requests are answered
the row is stored. -/
theorem register_inserts_member_with_digest (c : Crypto) (env : Env) (db : Datastore)
    (body : Credentials) :
    (∀ row, Call.insertUser row ∈ (register c env db body).log →
      row.role = some "member" ∧ row.status = some "active" ∧ row.email = body.username ∧
      ∃ digest, c.hash body.password = some digest ∧ row.password = some digest) ∧
    (∀ u ∈ (register c env db body).db.users, u ∈ db.users ∨
      (u.role = some "member" ∧ u.status = some "active" ∧
        ∃ digest, c.hash body.password = some digest ∧ u.password = some digest)) ∧
    (∀ r st, register c env db { body with role := r, status := st } =
      register c env db body) ∧
    ((∀ p d, c.hash p = some d → d ≠ p) →
      ∀ row, Call.insertUser row ∈ (register c env db body).log →
        row.password ≠ some body.password) ∧
    (env.fails 0 = false → env.fails 1 = false →
      (∀ x ∈ db.users, x.email ≠ body.username) →
      ∀ hash, c.hash body.password = some hash →
        (register c env db body).db.users = db.users ++ [newUser env body.username hash]) := by
  refine ⟨?_, ?_, ?_, ?_, ?_⟩
  · intro row h
    obtain ⟨hash, hh, hrow⟩ := register_insert_row c env db body row h
    subst hrow
    exact ⟨rfl, rfl, rfl, hash, hh, rfl⟩
  · intro u hu
    rcases register_users c env db body with h | ⟨hash, hh, _, h⟩
    · rw [h] at hu
      exact Or.inl hu
    · rw [h] at hu
      simp only [List.mem_append, List.mem_singleton] at hu
      rcases hu with hu | hu
      · exact Or.inl hu
      · subst hu
        exact Or.inr ⟨rfl, rfl, hash, hh, rfl⟩
  · intro r st
    rfl
  · intro hhash row h
    obtain ⟨hash, hh, hrow⟩ := register_insert_row c env db body row h
    subst hrow
    intro heq
    exact hhash _ _ hh (Option.some.inj heq)
  · intro h0 h1 hfree hash hh
    rw [register_eq]
    have hnil := usersByEmail_eq_nil db _ hfree
    simp [h0, h1, hnil, hh]

/-- C15 (witness): a new email whose body also carries `role: "admin"`; the row
stored is a member with the digest. -/
theorem register_inserts_member_with_digest_witness :
    (register crypto0 env0 db0
        { username := "frank@x.com", password := "pw", role := some "admin" }).db.users =
      db0.users ++ [{ id := "new-1", email := "frank@x.com", password := some "$2b$10$fresh",
                      role := some "member", status := some "active" }] :=
  (register_inserts_member_with_digest crypto0 env0 db0
      { username := "frank@x.com", password := "pw", role := some "admin" }).2.2.2.2
    rfl rfl (by decide) "$2b$10$fresh" rfl

/-- C16: when the datastore already holds an identity with the presented
email, register redirects to `/login` after the lookup alone: no insert is
issued, no session is bound and the datastore, so the users table, is
unchanged. -/
theorem register_rejects_taken_email (c : Crypto) (env : Env) (db : Datastore)
    (body : Credentials) (htaken : ∃ u ∈ db.users, u.email = body.username) :
    register c env db body =
      { response := some .login, session := none, db := db,
        log := [Call.selectUsersByEmail body.username] } ∧
    (register c env db body).db.users = db.users ∧
    (register c env db body).session = none ∧
    (∀ row, Call.insertUser row ∉ (register c env db body).log) := by
  have h : register c env db body =
      { response := some .login, session := none, db := db,
        log := [Call.selectUsersByEmail body.username] } := by
    rw [register_eq, if_pos (Or.inr (usersByEmail_ne_nil db _ htaken))]
  rw [h]
  refine ⟨rfl, rfl, rfl, ?_⟩
  intro row
  simp

/-- C16 (witness): registering alice's email again. -/
theorem register_rejects_taken_email_witness :
    (∃ u ∈ db0.users, u.email = "alice@x.com") ∧
    (register crypto0 env0 db0 { username := "alice@x.com", password := "pw" }).db.users =
      db0.users :=
  ⟨by decide,
   (register_rejects_taken_email crypto0 env0 db0
      { username := "alice@x.com", password := "pw" } (by decide)).2.1⟩

/-- C17 (counterexample): alice is stored as `alice@x.com`; registering
`Alice@x.com` is not rejected, and afterwards two stored identities have emails
that are equal up to letter case. -/
theorem register_accepts_email_differing_in_case :
    alice ∈ db0.users ∧ sameIgnoringCase alice.email "Alice@x.com" ∧
    register crypto0 env0 db0 { username := "Alice@x.com", password := "pw" } =
      { response := some .secrets
        session := some (newUser env0 "Alice@x.com" "$2b$10$fresh")
        db := { db0 with users := db0.users ++ [newUser env0 "Alice@x.com" "$2b$10$fresh"] }
        log := [Call.selectUsersByEmail "Alice@x.com",
                Call.insertUser (newUser env0 "Alice@x.com" "$2b$10$fresh")] } ∧
    alice ≠ newUser env0 "Alice@x.com" "$2b$10$fresh" := by
  refine ⟨by decide, by decide, by decide, by decide⟩

/-- One register request keeps the stored emails distinct. -/
theorem register_emailsDistinct (c : Crypto) (env : Env) (db : Datastore) (body : Credentials)
    (h : db.emailsDistinct) : (register c env db body).db.emailsDistinct := by
  rcases register_users c env db body with hdb | ⟨hash, _, hnil, hdb⟩
  · rw [hdb]
    exact h
  · rw [hdb]
    show (db.users ++ [newUser env body.username hash]).Pairwise (fun a b => a.email ≠ b.email)
    rw [List.pairwise_append]
    refine ⟨h, List.pairwise_singleton _ _, ?_⟩
    intro a ha b hb
    rw [List.mem_singleton] at hb
    subst hb
    intro heq
    have : a ∈ db.usersByEmail body.username := by
      simp only [Datastore.usersByEmail, List.mem_filter, beq_iff_eq]
      exact ⟨ha, heq⟩
    rw [hnil] at this
    cases this

/-- C17 (amended): email uniqueness is exact, letter case included.  If a
stored identity has exactly the presented email, register stores nothing; after
any sequence of registrations handled one after the other, no two stored
identities have exactly the same email, provided none had before; and an email
that equals a stored one up to letter case, without being exactly a stored one,
is registered as a new identity, so that two stored identities then have
emails that are equal ignoring case. -/
theorem register_keeps_emails_distinct (db : Datastore)
    (reqs : List (Crypto × Env × Credentials)) (h : db.emailsDistinct) :
    (∀ c env body, (∃ u ∈ db.users, u.email = body.username) →
      (register c env db body).db = db) ∧
    (registerAll db reqs).emailsDistinct ∧
    (∀ (c : Crypto) (env : Env) (body : Credentials) (x : User) (digest : String),
      x ∈ db.users → sameIgnoringCase x.email body.username →
      (∀ y ∈ db.users, y.email ≠ body.username) →
      env.fails 0 = false → env.fails 1 = false → c.hash body.password = some digest →
      (register c env db body).response = some .secrets ∧
      (register c env db body).db.users =
        db.users ++ [newUser env body.username digest] ∧
      x ∈ (register c env db body).db.users ∧
      newUser env body.username digest ∈ (register c env db body).db.users ∧
      x.email ≠ (newUser env body.username digest).email ∧
      sameIgnoringCase x.email (newUser env body.username digest).email) := by
  refine ⟨?_, ?_, ?_⟩
  · intro c env body htaken
    rw [register_eq, if_pos (Or.inr (usersByEmail_ne_nil db _ htaken))]
  · induction reqs generalizing db with
    | nil => exact h
    | cons r rest ih =>
      obtain ⟨c, env, body⟩ := r
      exact ih _ (register_emailsDistinct c env db body h)
  · intro c env body x digest hx hcase hfree h0 h1 hh
    have hnil := usersByEmail_eq_nil db _ hfree
    have hreg : register c env db body =
        { response := some .secrets
          session := if c.logInFails then none else some (newUser env body.username digest)
          db := { db with users := db.users ++ [newUser env body.username digest] }
          log := [Call.selectUsersByEmail body.username,
                  Call.insertUser (newUser env body.username digest)] } := by
      rw [register_eq]
      simp [h0, h1, hnil, hh]
    rw [hreg]
    refine ⟨rfl, rfl, ?_, ?_, hfree x hx, hcase⟩
    · exact List.mem_append_left _ hx
    · exact List.mem_append_right _ (List.mem_singleton.mpr rfl)

/-- C17 (witness): `Alice@x.com` is registered next to the stored
`alice@x.com`; and of two registrations of the same new email only the first
one stores a row. -/
theorem register_keeps_emails_distinct_witness :
    db0.emailsDistinct ∧ alice ∈ db0.users ∧ sameIgnoringCase alice.email "Alice@x.com" ∧
    (∀ y ∈ db0.users, y.email ≠ "Alice@x.com") ∧
    (registerAll db0
      [(crypto0, env0, { username := "frank@x.com", password := "pw" }),
       (crypto0, env0, { username := "frank@x.com", password := "pw2" })]).emailsDistinct ∧
    (register crypto0 env0 db0 { username := "Alice@x.com", password := "pw" }).db.users =
      db0.users ++ [newUser env0 "Alice@x.com" "$2b$10$fresh"] :=
  ⟨by decide, by decide, by decide, by decide,
   (register_keeps_emails_distinct db0
      [(crypto0, env0, { username := "frank@x.com", password := "pw" }),
       (crypto0, env0, { username := "frank@x.com", password := "pw2" })] (by decide)).2.1,
   ((register_keeps_emails_distinct db0 [] (by decide)).2.2 crypto0 env0
      { username := "Alice@x.com", password := "pw" } alice "$2b$10$fresh"
      (by decide) (by decide) (by decide) rfl rfl rfl).2.1⟩

/-- C18 (failing input): carol, a manager, creates a project while the
datastore answers the project insert and rejects the membership insert; she is
answered 201 with the project, and no membership row for the project exists. -/
theorem project_created_without_owner_row :
    carol.role = some "manager" ∧ env1.fails 0 = false ∧ env1.fails 1 = true ∧
    (postProjectRoute env1 db0
        { user := some carol, body := { name := .val "Site Redesign" } }).response =
      some { status := 201,
             payload := .project (newProject env1 carol { name := .val "Site Redesign" }) } ∧
    (postProjectRoute env1 db0
        { user := some carol, body := { name := .val "Site Redesign" } }).db.project_members =
      db0.project_members ∧
    ¬ ∃ r ∈ (postProjectRoute env1 db0
        { user := some carol, body := { name := .val "Site Redesign" } }).db.project_members,
      r.project_id = (newProject env1 carol { name := .val "Site Redesign" }).id := by
  refine ⟨rfl, rfl, rfl, by decide, by decide, by decide⟩

/-- When both inserts of create-project are answered, the answer is 201 and the
owner row of the creator is stored. -/
theorem postProject_owner_row (env : Env) (db : Datastore) (req : Req) (u : User)
    (hu : req.user = some u) (h0 : env.fails 0 = false) (h1 : env.fails 1 = false) :
    (postProject env db req).response =
      some { status := 201, payload := .project (newProject env u req.body) } ∧
    ownerRow env u (newProject env u req.body) ∈ (postProject env db req).db.project_members := by
  simp [postProject, hu, h0, h1, awaitSingle, reply]

/-- An instance of `postProject_owner_row`: carol creates a project in `db0`. -/
theorem postProject_owner_row_witness :
    (postProject env0 db0
        { user := some carol, body := { name := .val "Site Redesign" } }).response =
      some { status := 201,
             payload := .project (newProject env0 carol { name := .val "Site Redesign" }) } :=
  (postProject_owner_row env0 db0
    { user := some carol, body := { name := .val "Site Redesign" } } carol rfl rfl rfl).1

/-- The project list for an admin. -/
theorem getProjects_admin (env : Env) (db : Datastore) (req : Req) (u : User)
    (hu : req.user = some u) (hr : u.role = some "admin") :
    getProjects env db req = awaitProjectsQuery env db 0 [] [] := by
  have hna : u.notAdmin = false := by simp [User.notAdmin, hr]
  simp [getProjects, hu, hna]

/-- The task list for an admin. -/
theorem getTasks_admin (env : Env) (db : Datastore) (req : Req) (u : User)
    (hu : req.user = some u) (hr : u.role = some "admin") :
    getTasks env db req = awaitTasksQuery env db 0 [] (callerFilters req.query) := by
  have hna : u.notAdmin = false := by simp [User.notAdmin, hr]
  simp [getTasks, hu, hna]

/-- The scoped reads depend on the identity through its id alone, as long as it
is not admin. -/
theorem scoped_reads_same_id (env : Env) (db : Datastore) (req : Req) (a b : User)
    (hid : a.id = b.id) (ha : a.notAdmin = true) (hb : b.notAdmin = true) :
    getProjects env db { req with user := some a } =
      getProjects env db { req with user := some b } ∧
    getTasks env db { req with user := some a } =
      getTasks env db { req with user := some b } ∧
    getProjectById env db { req with user := some a } =
      getProjectById env db { req with user := some b } := by
  have hl : membershipLookup a = membershipLookup b := by
    simp [membershipLookup, hid]
  have hm : db.memberProjectIds a = db.memberProjectIds b := by
    simp [Datastore.memberProjectIds, hl]
  refine ⟨?_, ?_, ?_⟩
  · rw [getProjects_nonAdmin env db _ a rfl ha, getProjects_nonAdmin env db _ b rfl hb, hl, hm]
  · rw [getTasks_nonAdmin env db _ a rfl ha, getTasks_nonAdmin env db _ b rfl hb, hl, hm]
  · simp only [getProjectById, ha, hb, hid]

/-- A role below another is not admin, and the role above is manager or admin. -/
theorem roleBelow_cases (lo hi : String) (h : roleBelow lo hi) :
    lo ≠ "admin" ∧ (hi = "manager" ∨ hi = "admin") := by
  rcases h with ⟨h1, h2⟩ | ⟨h1, h2⟩
  · subst h1
    exact ⟨by decide, h2⟩
  · subst h1
    exact ⟨by decide, Or.inr h2⟩

/-- C20: capability is monotone in the order member below manager below admin.
For two identities with the same id (so the same membership rows) and roles
`lo` below `hi`: whenever `requireRole` with a role list the server uses calls
`next` for `lo` it does for `hi`; whenever the single-project read answers the
project to `lo` it answers it to `hi`; every project and every task listed for
`lo` is listed for `hi`. -/
theorem capability_monotone (env : Env) (db : Datastore) (req : Req) (ulo uhi : User)
    (lo hi : String) (hid : ulo.id = uhi.id) (hlo : ulo.role = some lo)
    (hhi : uhi.role = some hi) (hlt : roleBelow lo hi) :
    (∀ roles ∈ [["admin", "manager"], ["admin"]],
      requireRole roles { req with user := some ulo } = Verdict.next →
      requireRole roles { req with user := some uhi } = Verdict.next) ∧
    (∀ pl, (getProjectByIdRoute env db { req with user := some ulo }).response =
        some { status := 200, payload := pl } →
      (getProjectByIdRoute env db { req with user := some uhi }).response =
        some { status := 200, payload := pl }) ∧
    (∀ ps, (getProjectsRoute env db { req with user := some ulo }).response =
        some { status := 200, payload := .projects ps } →
      ∀ p ∈ ps, ∃ qs, (getProjectsRoute env db { req with user := some uhi }).response =
        some { status := 200, payload := .projects qs } ∧ p ∈ qs) ∧
    (∀ ts, (getTasksRoute env db { req with user := some ulo }).response =
        some { status := 200, payload := .tasks ts } →
      ∀ t ∈ ts, ∃ qs, (getTasksRoute env db { req with user := some uhi }).response =
        some { status := 200, payload := .tasks qs } ∧ t ∈ qs) := by
  obtain ⟨hlo_na, hhi_cases⟩ := roleBelow_cases lo hi hlt
  have hnaLo : ulo.notAdmin = true := by
    simp [User.notAdmin, hlo, hlo_na]
  refine ⟨?_, ?_, ?_, ?_⟩
  · intro roles hroles hnext
    simp only [List.mem_cons, List.mem_singleton, List.not_mem_nil, or_false] at hroles
    rcases hroles with hroles | hroles
    · subst hroles
      rw [requireRole_of_user _ _ uhi rfl, if_pos]
      apply (contains_admin_manager uhi).mpr
      rcases hhi_cases with h | h
      · exact Or.inr (by rw [hhi, h])
      · exact Or.inl (by rw [hhi, h])
    · subst hroles
      rw [requireRole_of_user _ _ ulo rfl] at hnext
      by_cases c : ["admin"].contains ulo.roleOrMember = true
      · have := (contains_admin ulo).mp c
        rw [hlo] at this
        exact absurd (Option.some.inj this) hlo_na
      · rw [if_neg c] at hnext
        cases hnext
  · intro pl h
    rcases hhi_cases with hm | hadm
    · have hnaHi : uhi.notAdmin = true := by simp [User.notAdmin, hhi, hm]
      rw [getProjectByIdRoute, runRoute_requireAuth _ _ _ _ uhi rfl,
        ← (scoped_reads_same_id env db req ulo uhi hid hnaLo hnaHi).2.2]
      rw [getProjectByIdRoute, runRoute_requireAuth _ _ _ _ ulo rfl] at h
      exact h
    · have hnaHi : uhi.notAdmin = false := by simp [User.notAdmin, hhi, hadm]
      rw [getProjectByIdRoute, runRoute_requireAuth _ _ _ _ ulo rfl] at h
      rw [getProjectByIdRoute, runRoute_requireAuth _ _ _ _ uhi rfl]
      simp only [getProjectById, hnaLo, hnaHi, if_true] at h ⊢
      cases hr : (awaitSingle (env.fails 0) (db.matchProjects [ProjectFilter.eqId req.id])).error
      · simp only [hr, Bool.false_eq_true, if_false] at h ⊢
        split at h
        · simp [reply] at h
        · simpa [reply] using h
      · simp [hr, reply] at h
  · intro ps h p hp
    rcases hhi_cases with hm | hadm
    · have hnaHi : uhi.notAdmin = true := by simp [User.notAdmin, hhi, hm]
      refine ⟨ps, ?_, hp⟩
      rw [getProjectsRoute, runRoute_requireAuth _ _ _ _ uhi rfl,
        ← (scoped_reads_same_id env db req ulo uhi hid hnaLo hnaHi).1]
      rw [getProjectsRoute, runRoute_requireAuth _ _ _ _ ulo rfl] at h
      exact h
    · rw [getProjectsRoute, runRoute_requireAuth _ _ _ _ ulo rfl] at h
      have hsound := getProjects_nonAdmin_sound env db _ ulo rfl hnaLo ps h p hp
      rw [getProjects_nonAdmin env db _ ulo rfl hnaLo] at h
      have h0 : env.fails 0 = false := by
        by_contra hf
        rw [if_pos (Or.inl (by simpa using hf))] at h
        simp only [reply, Option.some.injEq, Response.mk.injEq, Payload.projects.injEq,
          true_and] at h
        subst h
        cases hp
      refine ⟨db.projects, ?_, hsound.1⟩
      rw [getProjectsRoute, runRoute_requireAuth _ _ _ _ uhi rfl,
        getProjects_admin env db _ uhi rfl (by rw [hhi, hadm])]
      simp [awaitProjectsQuery, awaitRows, h0, reply, Datastore.matchProjects]
  · intro ts h t ht
    rcases hhi_cases with hm | hadm
    · have hnaHi : uhi.notAdmin = true := by simp [User.notAdmin, hhi, hm]
      refine ⟨ts, ?_, ht⟩
      rw [getTasksRoute, runRoute_requireAuth _ _ _ _ uhi rfl,
        ← (scoped_reads_same_id env db req ulo uhi hid hnaLo hnaHi).2.1]
      rw [getTasksRoute, runRoute_requireAuth _ _ _ _ ulo rfl] at h
      exact h
    · rw [getTasksRoute, runRoute_requireAuth _ _ _ _ ulo rfl,
        getTasks_nonAdmin env db _ ulo rfl hnaLo] at h
      by_cases hc : env.fails 0 = true ∨ db.memberProjectIds ulo = []
      · rw [if_pos hc] at h
        simp only [reply, Option.some.injEq, Response.mk.injEq, Payload.tasks.injEq,
          true_and] at h
        subst h
        cases ht
      · rw [if_neg hc] at h
        have h0 : env.fails 0 = false := by
          by_contra hf
          exact hc (Or.inl (by simpa using hf))
        by_cases hg : env.fails 1 = true
        · rw [if_pos hg] at h
          simp [reply] at h
        · rw [if_neg hg] at h
          simp only [reply, Option.some.injEq, Response.mk.injEq, Payload.tasks.injEq,
            true_and] at h
          subst h
          refine ⟨db.matchTasks (callerFilters req.query), ?_,
            ((mem_matchTasks_scoped db _ _ t).mp ht).1⟩
          rw [getTasksRoute, runRoute_requireAuth _ _ _ _ uhi rfl,
            getTasks_admin env db _ uhi rfl (by rw [hhi, hadm])]
          simp [awaitTasksQuery, awaitRows, h0, reply]

/-- C20 (witness): bob is a member of the project `p1` in `db1`; the project
listed for him is listed for an admin with the same id. -/
theorem capability_monotone_witness :
    bob.id = ({ bob with role := some "admin" } : User).id ∧ roleBelow "member" "admin" ∧
    ∃ qs, (getProjectsRoute env0 db1
        { user := some { bob with role := some "admin" } }).response =
      some { status := 200, payload := .projects qs } ∧ site ∈ qs :=
  ⟨rfl, by decide,
   (capability_monotone env0 db1 { user := some bob } bob { bob with role := some "admin" }
      "member" "admin" rfl rfl rfl (by decide)).2.2.1 [site] (by decide) site (by decide)⟩

/-- C21 (counterexample): guest has no role and mallory has the role
"superuser".  Both pass `requireAuth`; `GET /api/user` reports guest as a
member; guest passes a role check that admits members; and both get from
`requireRole(["admin", "manager"])` the very answer bob, a member, gets. -/
theorem roleless_identity_is_treated_as_member :
    guest.role = none ∧ mallory.role = some "superuser" ∧
    requireAuth { user := some guest } = Verdict.next ∧
    requireAuth { user := some mallory } = Verdict.next ∧
    (getUserRoute env0 db0 { user := some guest }).response =
      some { status := 200,
             payload := .currentUser
               { id := "u6", email := "guest@x.com", role := "member", status := "active" } } ∧
    requireRole ["member"] { user := some guest } = Verdict.next ∧
    requireRole ["admin", "manager"] { user := some guest } =
      requireRole ["admin", "manager"] { user := some bob } ∧
    requireRole ["admin", "manager"] { user := some mallory } =
      requireRole ["admin", "manager"] { user := some bob } := by
  decide

/-- C21 (amended): there is no invalid-role rejection.  An identity with no
role, or an empty one, is treated by every role check as a member and is
reported as a member by `GET /api/user`; an identity with any other role string
`r` passes `requireAuth`, and `requireRole(roles)` calls `next` when `r` is in
`roles` and otherwise answers the 403 "Insufficient permissions" that every
insufficient role gets. -/
theorem unknown_role_handling (env : Env) (db : Datastore) (req : Req) (u : User)
    (roles : List String) :
    requireAuth { req with user := some u } = Verdict.next ∧
    ((u.role = none ∨ u.role = some "") →
      requireRole roles { req with user := some u } =
        requireRole roles { req with user := some { u with role := some "member" } } ∧
      ∃ cu, (getUserRoute env db { req with user := some u }).response =
        some { status := 200, payload := .currentUser cu } ∧ cu.role = "member") ∧
    (∀ r, u.role = some r → r ≠ "" →
      requireRole roles { req with user := some u } =
        (if roles.contains r then Verdict.next
         else Verdict.respond
           { status := 403, payload := .error "Insufficient permissions" })) := by
  refine ⟨rfl, ?_, ?_⟩
  · intro h
    have hm : u.roleOrMember = "member" := by
      rcases h with h | h <;> simp [User.roleOrMember, h]
    constructor
    · rw [requireRole_of_user _ _ u rfl, requireRole_of_user _ _ _ rfl, hm]
      rfl
    · refine ⟨{ id := u.id, email := u.email, role := u.roleOrMember,
                status := u.statusOrActive }, ?_, hm⟩
      rw [getUserRoute, runRoute_requireAuth _ _ _ _ u rfl]
      rfl
  · intro r hr hne
    have hm : u.roleOrMember = r := by
      simp [User.roleOrMember, hr, hne]
    rw [requireRole_of_user _ _ u rfl, hm]

/-- C21 (witness): guest, who has no role, and mallory, whose role is
"superuser". -/
theorem unknown_role_handling_witness :
    guest.role = none ∧ mallory.role = some "superuser" ∧
    requireRole ["admin", "manager"] { user := some guest } =
      requireRole ["admin", "manager"]
        { user := some { guest with role := some "member" } } ∧
    requireRole ["admin", "manager"] { user := some mallory } =
      Verdict.respond { status := 403, payload := .error "Insufficient permissions" } :=
  ⟨rfl, rfl,
   ((unknown_role_handling env0 db0 { user := some guest } guest ["admin", "manager"]).2.1
      (Or.inl rfl)).1,
   ((unknown_role_handling env0 db0 { user := some mallory } mallory
      ["admin", "manager"]).2.2 "superuser" rfl (by decide)).trans rfl⟩

/-- C24 (counterexample): guest is authenticated and has no role, so no role
of guest is in the list `["member"]`; `requireRole(["member"])` calls `next`. -/
theorem roleless_identity_passes_member_check :
    ({ user := some guest } : Req).isAuthenticated = true ∧
    (¬ ∃ r, guest.role = some r ∧ r ∈ ["member"]) ∧
    requireRole ["member"] { user := some guest } = Verdict.next := by
  refine ⟨rfl, ?_, rfl⟩
  rintro ⟨r, hr, _⟩
  cases hr

/-- C24 (amended): for every role list and request `requireRole(roles)` does
exactly one of three things.  It answers 401 iff the request is not
authenticated, whatever the list; it answers 403 iff the request is
authenticated and the identity's role, read as member when it is unset or
empty, is not in the list; it calls `next` iff the request is authenticated and
that role is in the list. -/
theorem requireRole_three_way (roles : List String) (req : Req) :
    (requireRole roles req =
        Verdict.respond { status := 401, payload := .error "Authentication required" } ↔
      req.isAuthenticated = false) ∧
    (requireRole roles req =
        Verdict.respond { status := 403, payload := .error "Insufficient permissions" } ↔
      ∃ u, req.user = some u ∧ roles.contains u.roleOrMember = false) ∧
    (requireRole roles req = Verdict.next ↔
      ∃ u, req.user = some u ∧ roles.contains u.roleOrMember = true) := by
  cases hu : req.user with
  | none =>
    simp [requireRole, Req.isAuthenticated, hu]
  | some u =>
    rw [requireRole_of_user roles req u hu]
    cases hc : roles.contains u.roleOrMember
    · simp only [Bool.false_eq_true, if_false, Req.isAuthenticated, hu, Option.isSome_some,
        Option.some.injEq, exists_eq_left', hc]
      simp
    · simp only [if_true, Req.isAuthenticated, hu, Option.isSome_some,
        Option.some.injEq, exists_eq_left', hc]
      simp

/-- C25: `canEditTask(task)` is true iff there is a current user and its role
is admin or manager or its id is the task's `assigned_to`; it is false when
`auth` or `auth.currentUser` is not set. -/
theorem canEditTask_iff (auth : Option AuthManager) (task : Task) :
    (canEditTask auth task = true ↔
      ∃ a cu, auth = some a ∧ a.currentUser = some cu ∧
        (cu.role = "admin" ∨ cu.role = "manager" ∨ some cu.id = task.assigned_to)) ∧
    canEditTask none task = false ∧
    canEditTask (some { currentUser := none }) task = false := by
  refine ⟨?_, rfl, rfl⟩
  cases auth with
  | none => simp [canEditTask]
  | some a =>
    rcases a with ⟨cu⟩
    cases cu with
    | none => simp [canEditTask]
    | some cu =>
      simp only [canEditTask]
      by_cases hr : cu.role = "admin" ∨ cu.role = "manager"
      · have hc : ["admin", "manager"].contains cu.role = true := by
          rcases hr with h | h <;> simp [h]
        simp only [hc, if_true, true_iff]
        refine ⟨_, cu, rfl, rfl, ?_⟩
        rcases hr with h | h
        · exact Or.inl h
        · exact Or.inr (Or.inl h)
      · have hc : ["admin", "manager"].contains cu.role = false := by
          simp only [not_or] at hr
          simp [hr.1, hr.2]
        simp only [hc, Bool.false_eq_true, if_false, beq_iff_eq]
        constructor
        · intro h
          exact ⟨_, cu, rfl, rfl, Or.inr (Or.inr h)⟩
        · rintro ⟨a, cu2, ha, hcu, h⟩
          cases ha
          cases hcu
          rcases h with h | h | h
          · exact absurd (Or.inl h) hr
          · exact absurd (Or.inr h) hr
          · exact h

/-- The position of a value that is none of the three statuses. -/
theorem indexOf_outside (x : Option String) (h1 : x ≠ some "pending")
    (h2 : x ≠ some "in-progress") (h3 : x ≠ some "completed") :
    indexOf ["pending", "in-progress", "completed"] x = -1 := by
  simp [indexOf, Ne.symm h1, Ne.symm h2, Ne.symm h3]

/-- C27: the status step of `updateTaskStatus` sends pending to in-progress,
in-progress to completed and completed to pending, so three steps return each
of the three statuses to itself; every other value is sent to pending. -/
theorem nextStatus_cycle :
    nextStatus (some "pending") = some "in-progress" ∧
    nextStatus (some "in-progress") = some "completed" ∧
    nextStatus (some "completed") = some "pending" ∧
    (∀ s ∈ [some "pending", some "in-progress", some "completed"],
      nextStatus (nextStatus (nextStatus s)) = s) ∧
    (∀ x, x ∉ [some "pending", some "in-progress", some "completed"] →
      nextStatus x = some "pending") := by
  refine ⟨by decide, by decide, by decide, by decide, ?_⟩
  intro x hx
  simp only [List.mem_cons, List.mem_singleton, List.not_mem_nil, or_false, not_or] at hx
  have h := indexOf_outside x hx.1 hx.2.1 hx.2.2
  simp only [nextStatus, h]
  rfl

/-- C27 (witness): a status outside the list, and no status at all. -/
theorem nextStatus_cycle_witness :
    some "archived" ∉ [some "pending", some "in-progress", some "completed"] ∧
    nextStatus (some "archived") = some "pending" ∧ nextStatus none = some "pending" :=
  ⟨by decide, nextStatus_cycle.2.2.2.2 _ (by decide), nextStatus_cycle.2.2.2.2 _ (by decide)⟩

/-- C22 (counterexample): bob is a member of `p1` only; `db1` and `db3` agree
on `p1`, its membership rows and its tasks, and differ in a project `p2` that
bob is no member of.  The members of `p2` and the dashboard totals answered to
bob differ between the two states. -/
theorem member_reads_depend_on_foreign_data :
    bob.role = some "member" ∧ db1.scopeOf bob = db3.scopeOf bob ∧
    (getProjectMembersRoute env0 db1 { user := some bob, id := "p2" }).response =
      some { status := 200, payload := .members [] } ∧
    (getProjectMembersRoute env0 db3 { user := some bob, id := "p2" }).response =
      some { status := 200,
             payload := .members (db3.project_members.filter (fun r => r.project_id == "p2")) } ∧
    db3.project_members.filter (fun r => r.project_id == "p2") ≠ [] ∧
    (getDashboardStatsRoute past0 env0 db1 { user := some bob }).response ≠
      (getDashboardStatsRoute past0 env0 db3 { user := some bob }).response := by
  refine ⟨rfl, by decide, by decide, by decide, by decide, by decide⟩

/-- Filtering a filtered list by a stronger test is filtering the list by it. -/
theorem filter_filter_of_imp {α : Type} (l : List α) (p q : α → Bool)
    (h : ∀ a, p a = true → q a = true) : (l.filter q).filter p = l.filter p := by
  rw [List.filter_filter]
  apply List.filter_congr
  intro a _
  cases hp : p a
  · simp
  · simp [h a hp]

/-- The tasks query of the statistics that selects the caller's tasks. -/
theorem matchTasks_assigned (db : Datastore) (v : Id) :
    db.matchTasks [.eqAssignedTo v] = db.tasks.filter (fun t => t.assigned_to == some v) := by
  simp [Datastore.matchTasks, TaskFilter.holds]

/-- The membership rows of a project, as the members route selects them. -/
theorem matchMembers_project (db : Datastore) (pid : Id) :
    db.matchMembers [.eqProjectId pid] =
      db.project_members.filter (fun r => r.project_id == pid) := by
  simp [Datastore.matchMembers, MemberFilter.holds]

/-- Two datastores that agree on the scope of an identity hold the same
membership rows for every project of that scope. -/
theorem members_of_scoped_project (dbA dbB : Datastore) (m : User) (pid : Id)
    (hs : dbA.scopeOf m = dbB.scopeOf m) (hin : pid ∈ dbA.memberProjectIds m) :
    dbA.matchMembers [.eqProjectId pid] = dbB.matchMembers [.eqProjectId pid] := by
  have hmem : dbA.project_members.filter
        (fun r => (dbA.memberProjectIds m).contains r.project_id) =
      dbB.project_members.filter
        (fun r => (dbB.memberProjectIds m).contains r.project_id) :=
    congrArg (fun x => x.2.1) hs
  have hinB : pid ∈ dbB.memberProjectIds m := by
    obtain ⟨r, hr, hru, hrp⟩ := (mem_memberProjectIds dbA m pid).mp hin
    have hrA : r ∈ dbA.project_members.filter
        (fun r => (dbA.memberProjectIds m).contains r.project_id) := by
      rw [List.mem_filter]
      refine ⟨hr, ?_⟩
      rw [hrp]
      simpa using hin
    rw [hmem, List.mem_filter] at hrA
    exact (mem_memberProjectIds dbB m pid).mpr ⟨r, hrA.1, hru, hrp⟩
  rw [matchMembers_project, matchMembers_project,
    ← filter_filter_of_imp dbA.project_members (fun r => r.project_id == pid)
      (fun r => (dbA.memberProjectIds m).contains r.project_id),
    ← filter_filter_of_imp dbB.project_members (fun r => r.project_id == pid)
      (fun r => (dbB.memberProjectIds m).contains r.project_id), hmem]
  · intro r hr
    have : r.project_id = pid := by simpa using hr
    rw [this]
    simpa using hinB
  · intro r hr
    have : r.project_id = pid := by simpa using hr
    rw [this]
    simpa using hin

/-- C22 (amended): for two datastore states that agree on the scope of an
identity `m`, the members route answers `m` the same for every project in which
`m` has a membership row: the membership rows of that project.  The dashboard
statistics are not scoped by membership: the route never reads a membership
row; when its requests are answered, its project figures count every stored
project (in all and by status), its task total counts every stored task, and
its other figures count the tasks assigned to the caller (in all, overdue, and
by status); so two states with the same projects and tasks tables get the same
statistics. -/
theorem stats_not_scoped (past : String → Bool) (env : Env) (dbA dbB : Datastore) (req : Req)
    (m : User) :
    (dbA.scopeOf m = dbB.scopeOf m → req.id ∈ dbA.memberProjectIds m →
      (getProjectMembersRoute env dbA { req with user := some m }).response =
        (getProjectMembersRoute env dbB { req with user := some m }).response) ∧
    (env.fails 0 = false →
      (getProjectMembersRoute env dbA { req with user := some m }).response =
        some { status := 200,
               payload := .members
                 (dbA.project_members.filter (fun r => r.project_id == req.id)) }) ∧
    (dbA.projects = dbB.projects → dbA.tasks = dbB.tasks →
      (getDashboardStatsRoute past env dbA req).response =
        (getDashboardStatsRoute past env dbB req).response) ∧
    (∀ fs, Call.selectProjectMembers fs ∉ (getDashboardStatsRoute past env dbA req).log) ∧
    (env.fails 0 = false → env.fails 1 = false → env.fails 2 = false →
      (getDashboardStatsRoute past env dbA { req with user := some m }).response =
        some { status := 200,
               payload := .stats
                 { projectCount := dbA.projects.length
                   activeProjects :=
                     (dbA.projects.filter (fun p => p.status == some "active")).length
                   completedProjects :=
                     (dbA.projects.filter (fun p => p.status == some "completed")).length
                   taskCount := dbA.tasks.length
                   userTaskCount :=
                     (dbA.tasks.filter (fun t => t.assigned_to == some m.id)).length
                   overdueTaskCount :=
                     ((dbA.tasks.filter (fun t => t.assigned_to == some m.id)).filter
                       (isOverdue past)).length
                   onHold := (dbA.projects.filter (fun p => p.status == some "on-hold")).length
                   completed :=
                     ((dbA.tasks.filter (fun t => t.assigned_to == some m.id)).filter
                       (fun t => t.status == some "completed")).length
                   inProgress :=
                     ((dbA.tasks.filter (fun t => t.assigned_to == some m.id)).filter
                       (fun t => t.status == some "in-progress")).length
                   pending :=
                     ((dbA.tasks.filter (fun t => t.assigned_to == some m.id)).filter
                       (fun t => t.status == some "pending")).length } }) := by
  refine ⟨?_, ?_, ?_, ?_, ?_⟩
  · intro hs hin
    rw [getProjectMembersRoute, runRoute_requireAuth _ _ _ _ m rfl,
      runRoute_requireAuth _ _ _ _ m rfl]
    have hrows := members_of_scoped_project dbA dbB m req.id hs hin
    simp only [getProjectMembers]
    rw [hrows]
    cases env.fails 0 <;> rfl
  · intro h0
    rw [getProjectMembersRoute, runRoute_requireAuth _ _ _ _ m rfl]
    simp only [getProjectMembers]
    rw [matchMembers_project, h0]
    rfl
  · intro hp ht
    cases hu : req.user with
    | none =>
      have hA : requireAuth req =
          Verdict.respond { status := 401, payload := .error "Authentication required" } := by
        simp [requireAuth, Req.isAuthenticated, hu]
      simp [getDashboardStatsRoute, runRoute, hA]
    | some u =>
      rw [getDashboardStatsRoute, runRoute_requireAuth _ _ _ _ u hu,
        runRoute_requireAuth _ _ _ _ u hu]
      simp [getDashboardStats, hu, Datastore.matchProjects, Datastore.matchTasks, hp, ht, reply]
  · intro fs
    cases hu : req.user with
    | none =>
      have hA : requireAuth req =
          Verdict.respond { status := 401, payload := .error "Authentication required" } := by
        simp [requireAuth, Req.isAuthenticated, hu]
      simp [getDashboardStatsRoute, runRoute, hA]
    | some u =>
      rw [getDashboardStatsRoute, runRoute_requireAuth _ _ _ _ u hu]
      simp [getDashboardStats, hu, reply]
  · intro h0 h1 h2
    rw [getDashboardStatsRoute, runRoute_requireAuth _ _ _ _ m rfl]
    simp only [getDashboardStats, matchTasks_assigned, h0, h1, h2, awaitRows,
      Bool.false_eq_true, if_false, countWhere, reply]
    simp [Datastore.matchProjects, Datastore.matchTasks]

/-- C22 (witness): bob in `db1` and `db3`, which agree on his scope: the members
of `p1` are answered alike; and `db3` with and without its membership rows
gives him the same statistics, which count the project and the task he is no
member of. -/
theorem stats_not_scoped_witness :
    db1.scopeOf bob = db3.scopeOf bob ∧ "p1" ∈ db1.memberProjectIds bob ∧
    (getProjectMembersRoute env0 db1 { user := some bob, id := "p1" }).response =
      (getProjectMembersRoute env0 db3 { user := some bob, id := "p1" }).response ∧
    db3.projects = ({ db3 with project_members := [] } : Datastore).projects ∧
    db3.tasks = ({ db3 with project_members := [] } : Datastore).tasks ∧
    (getDashboardStatsRoute past0 env0 db3 { user := some bob }).response =
      (getDashboardStatsRoute past0 env0 { db3 with project_members := [] }
        { user := some bob }).response :=
  ⟨by decide, by decide,
   (stats_not_scoped past0 env0 db1 db3 { user := some bob, id := "p1" } bob).1
     (by decide) (by decide),
   rfl, rfl,
   (stats_not_scoped past0 env0 db3 { db3 with project_members := [] } { user := some bob }
      bob).2.2.1 rfl rfl⟩

/-- C28 (failing input): a register request with a free email whose hash calls
back with an error: no response is sent, no row is stored and no session is
bound. -/
theorem register_hash_error_sends_nothing :
    (∀ x ∈ db0.users, x.email ≠ "frank@x.com") ∧ cryptoHashFails.hash "pw" = none ∧
    register cryptoHashFails env0 db0 { username := "frank@x.com", password := "pw" } =
      { response := none, session := none, db := db0,
        log := [Call.selectUsersByEmail "frank@x.com"] } := by
  refine ⟨by decide, rfl, by decide⟩

/-- Every other branch of register sends one redirect: the route sends no
response only when the email is free, the lookup is answered and the hash calls
back with an error. -/
theorem register_response_none_iff (c : Crypto) (env : Env) (db : Datastore)
    (body : Credentials) :
    (register c env db body).response = none ↔
      (env.fails 0 = false ∧ db.usersByEmail body.username = [] ∧
        c.hash body.password = none) := by
  rw [register_eq]
  by_cases hc : env.fails 0 = true ∨ db.usersByEmail body.username ≠ []
  · rw [if_pos hc]
    constructor
    · intro h
      cases h
    · rintro ⟨h0, hnil, _⟩
      rcases hc with hc | hc
      · rw [h0] at hc
        cases hc
      · exact absurd hnil hc
  · rw [if_neg hc]
    simp only [not_or, Bool.not_eq_true, ne_eq, not_not] at hc
    cases hh : c.hash body.password with
    | none => simp [hc.1, hc.2]
    | some hash =>
      by_cases h1 : env.fails 1 = true <;> simp [h1]

/-- C30: for an identity that is not admin, whatever `project_id`, `status` and
`assigned_to` the query string carries, every task answered by `GET /api/tasks`
belongs to a project with a membership row of the identity; so no task of a
project without such a row is answered, also when that project is asked for. -/
theorem task_filters_only_narrow (env : Env) (db : Datastore) (req : Req) (u : User)
    (hu : req.user = some u) (hr : u.role ≠ some "admin") :
    (∀ ts, (getTasksRoute env db req).response =
        some { status := 200, payload := .tasks ts } →
      ∀ t ∈ ts, ∃ r ∈ db.project_members,
        r.user_id = u.id ∧ t.project_id = some r.project_id) ∧
    (∀ pid, (¬ ∃ r ∈ db.project_members, r.user_id = u.id ∧ r.project_id = pid) →
      ∀ ts, (getTasksRoute env db req).response =
          some { status := 200, payload := .tasks ts } →
        ∀ t ∈ ts, t.project_id ≠ some pid) := by
  have hna : u.notAdmin = true := by simp [User.notAdmin, hr]
  have key : ∀ ts, (getTasksRoute env db req).response =
        some { status := 200, payload := .tasks ts } →
      ∀ t ∈ ts, ∃ r ∈ db.project_members,
        r.user_id = u.id ∧ t.project_id = some r.project_id := by
    intro ts h t ht
    rw [getTasksRoute, runRoute_requireAuth _ _ _ _ u hu] at h
    obtain ⟨_, r, hrm, htp, hru⟩ := getTasks_nonAdmin_sound env db req u hu hna ts h t ht
    exact ⟨r, hrm, hru, htp⟩
  refine ⟨key, ?_⟩
  intro pid hno ts h t ht heq
  obtain ⟨r, hrm, hru, htp⟩ := key ts h t ht
  rw [htp] at heq
  exact hno ⟨r, hrm, hru, Option.some.inj heq⟩

/-- C30 (witness): bob is a member of `p1` only and asks for the tasks of `p2`
in `db3`; the answer is empty. -/
theorem task_filters_only_narrow_witness :
    ({ user := some bob, query := { project_id := some "p2" } } : Req).user = some bob ∧
    bob.role ≠ some "admin" ∧
    (¬ ∃ r ∈ db3.project_members, r.user_id = bob.id ∧ r.project_id = "p2") ∧
    (getTasksRoute env0 db3
        { user := some bob, query := { project_id := some "p2" } }).response =
      some { status := 200, payload := .tasks [] } ∧
    ∀ t ∈ ([] : List Task), t.project_id ≠ some "p2" :=
  ⟨rfl, by decide, by decide, by decide,
   (task_filters_only_narrow env0 db3
      { user := some bob, query := { project_id := some "p2" } } bob rfl (by decide)).2
      "p2" (by decide) [] (by decide)⟩

/-- A route either runs its handler or answers from a middleware, and then the
datastore is untouched and no request is made. -/
theorem runRoute_cases (mws : List (Req → Verdict)) (h : Handler) (env : Env) (db : Datastore)
    (req : Req) :
    runRoute mws h env db req = h env db req ∨
      ∃ r, runRoute mws h env db req = { response := some r, db := db, log := [] } := by
  induction mws with
  | nil => exact Or.inl rfl
  | cons mw rest ih =>
    simp only [runRoute]
    cases mw req with
    | next => exact ih
    | respond r => exact Or.inr ⟨r, rfl⟩

/-- A route leaves the users table alone when its handler does. -/
theorem runRoute_users (mws : List (Req → Verdict)) (h : Handler) (env : Env) (db : Datastore)
    (req : Req) (hh : (h env db req).db.users = db.users) :
    (runRoute mws h env db req).db.users = db.users := by
  rcases runRoute_cases mws h env db req with hc | ⟨r, hc⟩
  · rw [hc]
    exact hh
  · rw [hc]

/-- The handlers that only read leave the datastore as it was. -/
theorem readers_keep_datastore (past : String → Bool) (env : Env) (db : Datastore) (req : Req) :
    (getUser env db req).db = db ∧ (getProjects env db req).db = db ∧
    (getTasks env db req).db = db ∧ (getUsers env db req).db = db ∧
    (getProjectById env db req).db = db ∧ (getProjectMembers env db req).db = db ∧
    (getDashboardStats past env db req).db = db := by
  refine ⟨?_, ?_, ?_, ?_, ?_, ?_, ?_⟩
  · unfold getUser
    split <;> rfl
  · unfold getProjects awaitProjectsQuery
    simp only [reply, internalError]
    repeat' split
    all_goals rfl
  · unfold getTasks awaitTasksQuery
    simp only [reply, internalError]
    repeat' split
    all_goals rfl
  · unfold getUsers
    simp only [reply]
    split <;> rfl
  · unfold getProjectById
    simp only [reply, internalError]
    repeat' split
    all_goals rfl
  · unfold getProjectMembers
    simp only [reply]
    split <;> rfl
  · unfold getDashboardStats
    simp only [reply, internalError]
    split <;> rfl

/-- The handlers that write leave the users table as it was. -/
theorem writers_keep_users (env : Env) (db : Datastore) (req : Req) :
    (postProject env db req).db.users = db.users ∧
    (postTask env db req).db.users = db.users ∧
    (putTask env db req).db.users = db.users ∧
    (putProject env db req).db.users = db.users := by
  refine ⟨?_, ?_, ?_, ?_⟩
  · unfold postProject
    simp only [reply, internalError]
    repeat' split
    all_goals rfl
  · unfold postTask
    simp only [reply, internalError]
    repeat' split
    all_goals rfl
  · unfold putTask Datastore.updateTask
    simp only [reply]
    repeat' split
    all_goals rfl
  · unfold putProject Datastore.updateProject
    simp only [reply]
    repeat' split
    all_goals rfl

/-- C23: no route changes the role of a stored identity.  After a request to
any route the users table is the table before it, followed by the rows the
request added (only register adds one): every row stored before is stored
after, at the same place, with the role it had. -/
theorem roles_never_change (route : Route) (c : Crypto) (past : String → Bool) (env : Env)
    (db : Datastore) (req : Req) (body : Credentials) :
    (∃ extra, (datastoreAfter route c past env db req body).users = db.users ++ extra) ∧
    (route ≠ Route.registerPost →
      (datastoreAfter route c past env db req body).users = db.users) ∧
    (∀ i u, db.users.get? i = some u →
      ∃ v, (datastoreAfter route c past env db req body).users.get? i = some v ∧
        v = u ∧ v.role = u.role) := by
  have hr := readers_keep_datastore past env db req
  have hw := writers_keep_users env db req
  have hsame : route ≠ Route.registerPost →
      (datastoreAfter route c past env db req body).users = db.users := by
    intro hne
    cases route with
    | apiUser => exact runRoute_users _ _ _ _ _ (by rw [hr.1])
    | apiProjectsGet => exact runRoute_users _ _ _ _ _ (by rw [hr.2.1])
    | apiProjectsPost => exact runRoute_users _ _ _ _ _ hw.1
    | apiTasksGet => exact runRoute_users _ _ _ _ _ (by rw [hr.2.2.1])
    | apiTasksPost => exact runRoute_users _ _ _ _ _ hw.2.1
    | apiTaskPut => exact runRoute_users _ _ _ _ _ hw.2.2.1
    | apiUsers => exact runRoute_users _ _ _ _ _ (by rw [hr.2.2.2.1])
    | apiProjectGet => exact runRoute_users _ _ _ _ _ (by rw [hr.2.2.2.2.1])
    | apiProjectPut => exact runRoute_users _ _ _ _ _ hw.2.2.2
    | apiProjectMembers => exact runRoute_users _ _ _ _ _ (by rw [hr.2.2.2.2.2.1])
    | apiDashboardStats => exact runRoute_users _ _ _ _ _ (by rw [hr.2.2.2.2.2.2])
    | loginPost =>
      show (login c env db body).db.users = db.users
      unfold login
      repeat' split
      all_goals rfl
    | registerPost => exact absurd rfl hne
    | home => rfl
    | loginPage => rfl
    | registerPage => rfl
    | logout => rfl
    | secrets => rfl
    | test => rfl
  have hext : ∃ extra, (datastoreAfter route c past env db req body).users =
      db.users ++ extra := by
    by_cases hne : route = Route.registerPost
    · subst hne
      show ∃ extra, (register c env db body).db.users = db.users ++ extra
      rcases register_users c env db body with h | ⟨hash, _, _, h⟩
      · exact ⟨[], by rw [h, List.append_nil]⟩
      · exact ⟨[newUser env body.username hash], by rw [h]⟩
    · exact ⟨[], by rw [hsame hne, List.append_nil]⟩
  refine ⟨hext, hsame, ?_⟩
  intro i u hi
  obtain ⟨extra, he⟩ := hext
  refine ⟨u, ?_, rfl, rfl⟩
  rw [he]
  have hlt : i < db.users.length := by
    rcases Nat.lt_or_ge i db.users.length with h | h
    · exact h
    · rw [List.get?_eq_none.mpr h] at hi
      cases hi
  rw [List.get?_eq_getElem?] at hi ⊢
  rw [List.getElem?_append_left hlt]
  exact hi

/-- C23 (witness): a register request that stores a new identity; alice, the
first row, is still the first row. -/
theorem roles_never_change_witness :
    db0.users.get? 0 = some alice ∧
    ∃ v, (datastoreAfter Route.registerPost crypto0 past0 env0 db0 { user := none }
        { username := "frank@x.com", password := "pw", role := some "admin" }).users.get? 0 =
      some v ∧ v = alice ∧ v.role = alice.role :=
  ⟨rfl,
   (roles_never_change Route.registerPost crypto0 past0 env0 db0 { user := none }
      { username := "frank@x.com", password := "pw", role := some "admin" }).2.2 0 alice rfl⟩

/-- The membership rows after create-project: those before it, or those
followed by the owner row of the new project. -/
theorem postProject_members (env : Env) (db : Datastore) (req : Req) :
    (postProject env db req).db.project_members = db.project_members ∨
    ∃ u, (postProject env db req).db.project_members =
      db.project_members ++ [ownerRow env u (newProject env u req.body)] := by
  unfold postProject
  cases req.user with
  | none => exact Or.inl rfl
  | some u =>
    simp only [awaitSingle]
    cases h0 : env.fails 0
    · cases h1 : env.fails 1
      · exact Or.inr ⟨u, by simp [reply]⟩
      · exact Or.inl (by simp [reply])
    · exact Or.inl (by simp [reply])

/-- C26: create-project keeps the membership rows unique per (project, user)
pair, when they were unique before and no membership row names the id of the
new project. -/
theorem postProject_keeps_membership_unique (env : Env) (db : Datastore) (req : Req)
    (hu : db.membershipUnique)
    (hfresh : ∀ r ∈ db.project_members, r.project_id ≠ env.newId 0) :
    (postProjectRoute env db req).db.membershipUnique := by
  have hcases : (postProjectRoute env db req).db.project_members = db.project_members ∨
      ∃ u, (postProjectRoute env db req).db.project_members =
        db.project_members ++ [ownerRow env u (newProject env u req.body)] := by
    rcases runRoute_cases [requireRole ["admin", "manager"]] postProject env db req with h | ⟨r, h⟩
    · rw [postProjectRoute, h]
      exact postProject_members env db req
    · rw [postProjectRoute, h]
      exact Or.inl rfl
  show ((postProjectRoute env db req).db.project_members).Pairwise _
  rcases hcases with h | ⟨u, h⟩
  · rw [h]
    exact hu
  · rw [h, List.pairwise_append]
    refine ⟨hu, List.pairwise_singleton _ _, ?_⟩
    intro a ha b hb
    rw [List.mem_singleton] at hb
    subst hb
    rintro ⟨hp, _⟩
    exact hfresh a ha hp

/-- C26 (witness): carol creates a project in `db1`; the new id `new-0` is not
named by a membership row, and the rows stay unique. -/
theorem postProject_keeps_membership_unique_witness :
    db1.membershipUnique ∧ (∀ r ∈ db1.project_members, r.project_id ≠ env0.newId 0) ∧
    (postProjectRoute env0 db1
      { user := some carol, body := { name := .val "Site Redesign" } }).db.membershipUnique :=
  ⟨by decide, by decide,
   postProject_keeps_membership_unique env0 db1
     { user := some carol, body := { name := .val "Site Redesign" } } (by decide) (by decide)⟩

/-- Rounding does not pass an integer that bounds the number from above. -/
theorem roundHalfEven_le (x : ℚ) (n : ℤ) (h : x ≤ n) : roundHalfEven x ≤ n := by
  have hfx : (⌊x⌋ : ℚ) ≤ x := Int.floor_le x
  have hf : ⌊x⌋ ≤ n := by exact_mod_cast hfx.trans h
  unfold roundHalfEven
  have hstep : 0 < x - ⌊x⌋ → ⌊x⌋ + 1 ≤ n := by
    intro hpos
    have hlt : (⌊x⌋ : ℚ) < n := lt_of_lt_of_le (by linarith) h
    have : ⌊x⌋ < n := by exact_mod_cast hlt
    omega
  simp only
  split
  · exact hf
  · rename_i h1
    split
    · exact hstep (by linarith)
    · split
      · exact hf
      · exact hstep (by linarith)

/-- Rounding a number that is not negative gives an integer that is not
negative. -/
theorem roundHalfEven_nonneg (x : ℚ) (h : 0 ≤ x) : 0 ≤ roundHalfEven x := by
  have hf : 0 ≤ ⌊x⌋ := Int.floor_nonneg.mpr h
  unfold roundHalfEven
  simp only
  repeat' split
  all_goals omega

/-- Rounding an integer gives that integer. -/
theorem roundHalfEven_intCast (n : ℤ) : roundHalfEven (n : ℚ) = n := by
  unfold roundHalfEven
  simp

/-- The result of an operation is never negative. -/
theorem toDouble_nonneg (q : ℚ) : 0 ≤ toDouble q := by
  unfold toDouble
  by_cases h0 : q ≤ 0
  · rw [if_pos h0]
  · rw [if_neg h0]
    have hq : 0 < q := lt_of_not_ge h0
    have hulp : (0 : ℚ) < 2 ^ (Int.log 2 q - 52) := by positivity
    apply mul_nonneg _ hulp.le
    exact_mod_cast roundHalfEven_nonneg _ (div_nonneg hq.le hulp.le)

/-- An operation does not pass a binary64 number that bounds its exact result
from above: `m * 2 ^ k` with `m` below `2 ^ 53` is such a number. -/
theorem toDouble_le (q : ℚ) (m k : ℤ) (hm0 : 0 ≤ m) (hm : (m : ℚ) < 2 ^ (53 : ℤ))
    (hq : q ≤ m * 2 ^ k) : toDouble q ≤ m * 2 ^ k := by
  have h2k : (0 : ℚ) < 2 ^ k := by positivity
  unfold toDouble
  by_cases h0 : q ≤ 0
  · rw [if_pos h0]
    exact mul_nonneg (by exact_mod_cast hm0) h2k.le
  · rw [if_neg h0]
    have hqpos : 0 < q := lt_of_not_ge h0
    have hlt : q < (2 : ℚ) ^ (53 + k) := by
      calc q ≤ m * 2 ^ k := hq
        _ < 2 ^ (53 : ℤ) * 2 ^ k := mul_lt_mul_of_pos_right hm h2k
        _ = 2 ^ (53 + k) := by rw [zpow_add₀ (by norm_num)]
    have he : Int.log 2 q < 53 + k :=
      (Int.lt_zpow_iff_log_lt (by norm_num) hqpos).mp (by exact_mod_cast hlt)
    generalize Int.log 2 q = e at he ⊢
    have hj : 0 ≤ k - (e - 52) := by omega
    have hulp : (0 : ℚ) < 2 ^ (e - 52) := by positivity
    have hB : (m : ℚ) * 2 ^ k =
        ((m * 2 ^ (k - (e - 52)).toNat : ℤ) : ℚ) * 2 ^ (e - 52) := by
      push_cast
      rw [mul_assoc, ← zpow_natCast, Int.toNat_of_nonneg hj, ← zpow_add₀ (by norm_num)]
      congr 2
      ring
    rw [hB]
    apply mul_le_mul_of_nonneg_right _ hulp.le
    have hdiv : q / 2 ^ (e - 52) ≤ ((m * 2 ^ (k - (e - 52)).toNat : ℤ) : ℚ) := by
      rw [div_le_iff₀ hulp, ← hB]
      exact hq
    exact_mod_cast roundHalfEven_le _ _ hdiv

/-- A binary64 number is the result of the operation whose exact result it
is. -/
theorem toDouble_exact (m k : ℤ) (hlo : (2 : ℚ) ^ (52 : ℤ) ≤ m) (hhi : (m : ℚ) < 2 ^ (53 : ℤ)) :
    toDouble (m * 2 ^ k) = m * 2 ^ k := by
  have h2k : (0 : ℚ) < 2 ^ k := by positivity
  have hmpos : (0 : ℚ) < m := lt_of_lt_of_le (by positivity) hlo
  have hpos : (0 : ℚ) < m * 2 ^ k := mul_pos hmpos h2k
  have hup : Int.log 2 ((m : ℚ) * 2 ^ k) < 53 + k := by
    apply (Int.lt_zpow_iff_log_lt (by norm_num) hpos).mp
    have : (m : ℚ) * 2 ^ k < 2 ^ (53 : ℤ) * 2 ^ k := mul_lt_mul_of_pos_right hhi h2k
    rw [← zpow_add₀ (by norm_num)] at this
    exact_mod_cast this
  have hdown : 52 + k ≤ Int.log 2 ((m : ℚ) * 2 ^ k) := by
    apply (Int.zpow_le_iff_le_log (by norm_num) hpos).mp
    have : (2 : ℚ) ^ (52 : ℤ) * 2 ^ k ≤ m * 2 ^ k := mul_le_mul_of_nonneg_right hlo h2k.le
    rw [← zpow_add₀ (by norm_num)] at this
    exact_mod_cast this
  have he : Int.log 2 ((m : ℚ) * 2 ^ k) - 52 = k := by omega
  unfold toDouble
  rw [if_neg (not_le.mpr hpos)]
  simp only [he]
  rw [mul_div_assoc, div_self h2k.ne', mul_one, roundHalfEven_intCast]

/-- The quotient `1` and the product `100` are exact. -/
theorem toDouble_one_hundred : toDouble 1 = 1 ∧ toDouble 100 = 100 := by
  constructor
  · have h := toDouble_exact (2 ^ 52) (-52) (by norm_num) (by norm_num)
    have e : (((2 ^ 52 : ℤ) : ℚ)) * 2 ^ (-52 : ℤ) = 1 := by norm_num
    rw [e] at h
    exact h
  · have h := toDouble_exact (100 * 2 ^ 46) (-46) (by norm_num) (by norm_num)
    have e : (((100 * 2 ^ 46 : ℤ) : ℚ)) * 2 ^ (-46 : ℤ) = 100 := by norm_num
    rw [e] at h
    exact h

/-- The percentage of `c` out of `t` tasks as the browser computes it. -/
theorem progress_bounds (c t : ℕ) (ht : 0 < t) (hc : c ≤ t) :
    0 ≤ mathRound (toDouble (toDouble ((c : ℚ) / (t : ℚ)) * 100)) ∧
    mathRound (toDouble (toDouble ((c : ℚ) / (t : ℚ)) * 100)) ≤ 100 := by
  have htq : (0 : ℚ) < t := by exact_mod_cast ht
  have hq1 : (c : ℚ) / t ≤ 1 := by
    rw [div_le_one htq]
    exact_mod_cast hc
  have hx0 := toDouble_nonneg ((c : ℚ) / t)
  have hx1 : toDouble ((c : ℚ) / t) ≤ 1 := by
    have h := toDouble_le ((c : ℚ) / t) (2 ^ 52) (-52) (by norm_num) (by norm_num)
      (by norm_num; exact hq1)
    have e : (((2 ^ 52 : ℤ) : ℚ)) * 2 ^ (-52 : ℤ) = 1 := by norm_num
    rw [e] at h
    exact h
  have hy0 := toDouble_nonneg (toDouble ((c : ℚ) / t) * 100)
  have hy1 : toDouble (toDouble ((c : ℚ) / t) * 100) ≤ 100 := by
    have h := toDouble_le (toDouble ((c : ℚ) / t) * 100) (100 * 2 ^ 46) (-46) (by norm_num)
      (by norm_num) (by norm_num; linarith)
    have e : (((100 * 2 ^ 46 : ℤ) : ℚ)) * 2 ^ (-46 : ℤ) = 100 := by norm_num
    rw [e] at h
    exact h
  unfold mathRound
  constructor
  · apply Int.floor_nonneg.mpr
    linarith
  · have : ⌊toDouble (toDouble ((c : ℚ) / t) * 100) + 1 / 2⌋ < 101 := by
      apply Int.floor_lt.mpr
      push_cast
      linarith
    omega

/-- C29: `calculateProjectProgress` returns an integer between 0 and 100; it
returns 0 when the project has no task, without dividing, and 100 when the
project has a task and all its tasks are completed. -/
theorem calculateProjectProgress_range (tasks : List Task) (projectId : Id) :
    0 ≤ calculateProjectProgress tasks projectId ∧
    calculateProjectProgress tasks projectId ≤ 100 ∧
    ((∀ t ∈ tasks, t.project_id ≠ some projectId) →
      calculateProjectProgress tasks projectId = 0) ∧
    ((∃ t ∈ tasks, t.project_id = some projectId) →
      (∀ t ∈ tasks, t.project_id = some projectId → t.status = some "completed") →
      calculateProjectProgress tasks projectId = 100) := by
  unfold calculateProjectProgress
  simp only
  generalize hP : tasks.filter (fun task => task.project_id == some projectId) = P
  have hmemP : ∀ t, t ∈ P ↔ t ∈ tasks ∧ t.project_id = some projectId := by
    intro t
    rw [← hP]
    simp [List.mem_filter]
  by_cases hlen : P.length = 0
  · rw [if_pos hlen]
    refine ⟨le_refl _, by norm_num, fun _ => rfl, ?_⟩
    rintro ⟨t, ht, htp⟩ _
    have : t ∈ P := (hmemP t).mpr ⟨ht, htp⟩
    rw [List.length_eq_zero.mp hlen] at this
    cases this
  · rw [if_neg hlen]
    have hpos : 0 < P.length := Nat.pos_of_ne_zero hlen
    have hle : (P.filter (fun task => task.status == some "completed")).length ≤ P.length :=
      List.length_filter_le _ _
    obtain ⟨hb0, hb1⟩ := progress_bounds _ _ hpos hle
    refine ⟨hb0, hb1, ?_, ?_⟩
    · intro hnone
      exfalso
      obtain ⟨t, ht⟩ := List.exists_mem_of_length_pos hpos
      exact hnone t ((hmemP t).mp ht).1 ((hmemP t).mp ht).2
    · intro _ hall
      have hfil : P.filter (fun task => task.status == some "completed") = P := by
        apply List.filter_eq_self.mpr
        intro t ht
        have := hall t ((hmemP t).mp ht).1 ((hmemP t).mp ht).2
        simp [this]
      have hne : (P.length : ℚ) ≠ 0 := by exact_mod_cast hlen
      rw [hfil, div_self hne, toDouble_one_hundred.1, one_mul, toDouble_one_hundred.2]
      unfold mathRound
      norm_num

/-- C29 (witness): the one task of `p1` is completed, and `p2` has no task. -/
theorem calculateProjectProgress_range_witness :
    (∃ t ∈ [report], t.project_id = some "p1") ∧
    (∀ t ∈ [report], t.project_id = some "p1" → t.status = some "completed") ∧
    (∀ t ∈ [report], t.project_id ≠ some "p2") ∧
    calculateProjectProgress [report] "p1" = 100 ∧
    calculateProjectProgress [report] "p2" = 0 :=
  ⟨by decide, by decide, by decide,
   (calculateProjectProgress_range [report] "p1").2.2.2 (by decide) (by decide),
   (calculateProjectProgress_range [report] "p2").2.2.1 (by decide)⟩

/-- A run that is alone goes through its two requests as `register` does,
whether or not the constraint is enforced. -/
theorem registerStep_alone (enforced : Bool) (c : Crypto) (env : Env) (db : Datastore)
    (body : Credentials) :
    registerStep enforced c env body
        (registerStep enforced c env body db .lookup).1
        (registerStep enforced c env body db .lookup).2 =
      ((register c env db body).db,
       .finished (register c env db body).response (register c env db body).session) := by
  rw [register_eq]
  cases h0 : env.fails 0
  · cases hl : db.usersByEmail body.username with
    | nil =>
      cases hh : c.hash body.password with
      | none => simp [registerStep, awaitRows, h0, hl, hh]
      | some hash =>
        have he : (newUser env body.username hash).email = body.username := rfl
        cases h1 : env.fails 1 <;>
          simp [registerStep, awaitRows, h0, hl, hh, h1, he]
    | cons x xs => simp [registerStep, awaitRows, h0, hl]
  · simp [registerStep, awaitRows, h0]

/-- A run that has ended makes no further request. -/
theorem registerStep_ended (enforced : Bool) (c : Crypto) (env : Env) (body : Credentials)
    (db : Datastore) (r : RegisterRun) (h : r.ended) :
    registerStep enforced c env body db r = (db, r) := by
  obtain ⟨response, session, hr⟩ := h
  subst hr
  rfl

/-- A pending run whose email is not stored: its lookup passes and it builds its
row, or its insert stores the row and it ends registered. -/
theorem registerStep_free (c : Crypto) (env : Env) (body : Credentials) (db : Datastore)
    (r : RegisterRun) (h0 : env.fails 0 = false) (h1 : env.fails 1 = false)
    (hh : (c.hash body.password).isSome = true)
    (hp : r.pending body.username) (hfree : db.usersByEmail body.username = []) :
    ((registerStep true c env body db r).1 = db ∧
      (registerStep true c env body db r).2.pending body.username) ∨
    (∃ row, row.email = body.username ∧
      (registerStep true c env body db r).1 = { db with users := db.users ++ [row] } ∧
      (registerStep true c env body db r).2.registered) := by
  rcases hp with hp | ⟨row, hp, hrow⟩
  · subst hp
    left
    obtain ⟨hash, hhash⟩ := Option.isSome_iff_exists.mp hh
    have hstep : registerStep true c env body db .lookup =
        (db, .insert (newUser env body.username hash)) := by
      simp [registerStep, awaitRows, h0, hfree, hhash]
    rw [hstep]
    exact ⟨rfl, Or.inr ⟨_, rfl, rfl⟩⟩
  · subst hp
    right
    have hstep : registerStep true c env body db (.insert row) =
        ({ db with users := db.users ++ [row] },
         .finished (some .secrets) (if c.logInFails then none else some row)) := by
      simp [registerStep, awaitRows, h1, hrow, hfree]
    rw [hstep]
    exact ⟨row, hrow, rfl, ⟨_, rfl⟩⟩

/-- A pending run whose email is stored: its lookup finds the row, or its insert
is refused by the constraint; either way it ends rejected and stores nothing. -/
theorem registerStep_taken (c : Crypto) (env : Env) (body : Credentials) (db : Datastore)
    (r : RegisterRun) (h0 : env.fails 0 = false)
    (hp : r.pending body.username) (htaken : db.usersByEmail body.username ≠ []) :
    registerStep true c env body db r = (db, .finished (some .login) none) := by
  obtain ⟨x, xs, hx⟩ := List.exists_cons_of_ne_nil htaken
  rcases hp with hp | ⟨row, hp, hrow⟩
  · subst hp
    simp [registerStep, awaitRows, h0, hx]
  · subst hp
    simp [registerStep, awaitRows, hrow, hx]

/-- A run cannot be pending and ended. -/
theorem pending_not_ended (e : String) (r : RegisterRun) (hp : r.pending e) (he : r.ended) :
    False := by
  obtain ⟨response, session, hr⟩ := he
  rcases hp with hp | ⟨row, hp, _⟩
  · rw [hp] at hr
    cases hr
  · rw [hp] at hr
    cases hr

/-- A request of one of two runs for the same free email keeps `Race.inv`, when
the constraint is enforced, the requests are answered and the hashes succeed. -/
theorem Race.inv_step (ra rb : Crypto × Env × Credentials) (db : Datastore) (e : String)
    (s : Race) (pick : Bool)
    (hua : ra.2.2.username = e) (hub : rb.2.2.username = e)
    (hfree : db.usersByEmail e = [])
    (hA0 : ra.2.1.fails 0 = false) (hA1 : ra.2.1.fails 1 = false)
    (hB0 : rb.2.1.fails 0 = false) (hB1 : rb.2.1.fails 1 = false)
    (hhA : (ra.1.hash ra.2.2.password).isSome = true)
    (hhB : (rb.1.hash rb.2.2.password).isSome = true)
    (hinv : Race.inv db e s) : Race.inv db e (Race.step true ra rb s pick) := by
  obtain ⟨sdb, first, second⟩ := s
  subst hua
  have hsdb : ∀ d : Datastore, d.users = db.users →
      d.usersByEmail ra.2.2.username = [] := by
    intro d hd
    simp only [Datastore.usersByEmail, hd]
    exact hfree
  rcases hinv with ⟨husers, hp1, hp2⟩ | ⟨row, hrow, husers, hcase⟩
  · simp only at husers hp1 hp2
    cases pick
    · simp only [Race.step, Bool.false_eq_true, if_false]
      have hfreeB : sdb.usersByEmail rb.2.2.username = [] := by
        rw [hub]
        exact hsdb sdb husers
      rcases registerStep_free rb.1 rb.2.1 rb.2.2 sdb second hB0 hB1 hhB (hub ▸ hp2) hfreeB
        with ⟨hd, hp⟩ | ⟨row, hrow, hd, hreg⟩
      · left
        exact ⟨by rw [hd]; exact husers, hp1, hub ▸ hp⟩
      · right
        refine ⟨row, hrow.trans hub, by rw [hd]; simp [husers], Or.inr ⟨hreg, Or.inl hp1⟩⟩
    · simp only [Race.step, if_true]
      rcases registerStep_free ra.1 ra.2.1 ra.2.2 sdb first hA0 hA1 hhA hp1
        (hsdb sdb husers) with ⟨hd, hp⟩ | ⟨row, hrow, hd, hreg⟩
      · left
        exact ⟨by rw [hd]; exact husers, hp, hp2⟩
      · right
        refine ⟨row, hrow, by rw [hd]; simp [husers], Or.inl ⟨hreg, Or.inl hp2⟩⟩
  · simp only at husers hcase
    have htaken : sdb.usersByEmail ra.2.2.username ≠ [] :=
      usersByEmail_ne_nil sdb _ ⟨row, by rw [husers]; simp, hrow⟩
    cases pick
    · simp only [Race.step, Bool.false_eq_true, if_false]
      right
      rcases hcase with ⟨hreg, hother⟩ | ⟨hreg, hother⟩
      · rcases hother with hp | hrej
        · rw [registerStep_taken rb.1 rb.2.1 rb.2.2 sdb second hB0 (hub ▸ hp) (hub ▸ htaken)]
          exact ⟨row, hrow, husers, Or.inl ⟨hreg, Or.inr rfl⟩⟩
        · rw [registerStep_ended true rb.1 rb.2.1 rb.2.2 sdb second ⟨_, _, hrej⟩]
          exact ⟨row, hrow, husers, Or.inl ⟨hreg, Or.inr hrej⟩⟩
      · obtain ⟨session, hs⟩ := hreg
        rw [registerStep_ended true rb.1 rb.2.1 rb.2.2 sdb second ⟨_, _, hs⟩]
        exact ⟨row, hrow, husers, Or.inr ⟨⟨session, hs⟩, hother⟩⟩
    · simp only [Race.step, if_true]
      right
      rcases hcase with ⟨hreg, hother⟩ | ⟨hreg, hother⟩
      · obtain ⟨session, hs⟩ := hreg
        rw [registerStep_ended true ra.1 ra.2.1 ra.2.2 sdb first ⟨_, _, hs⟩]
        exact ⟨row, hrow, husers, Or.inl ⟨⟨session, hs⟩, hother⟩⟩
      · rcases hother with hp | hrej
        · rw [registerStep_taken ra.1 ra.2.1 ra.2.2 sdb first hA0 hp htaken]
          exact ⟨row, hrow, husers, Or.inr ⟨hreg, Or.inr rfl⟩⟩
        · rw [registerStep_ended true ra.1 ra.2.1 ra.2.2 sdb first ⟨_, _, hrej⟩]
          exact ⟨row, hrow, husers, Or.inr ⟨hreg, Or.inr hrej⟩⟩

/-- Every interleaving keeps `Race.inv`. -/
theorem Race.inv_run (ra rb : Crypto × Env × Credentials) (db : Datastore) (e : String)
    (schedule : List Bool) (s : Race)
    (hua : ra.2.2.username = e) (hub : rb.2.2.username = e)
    (hfree : db.usersByEmail e = [])
    (hA0 : ra.2.1.fails 0 = false) (hA1 : ra.2.1.fails 1 = false)
    (hB0 : rb.2.1.fails 0 = false) (hB1 : rb.2.1.fails 1 = false)
    (hhA : (ra.1.hash ra.2.2.password).isSome = true)
    (hhB : (rb.1.hash rb.2.2.password).isSome = true)
    (hinv : Race.inv db e s) : Race.inv db e (Race.run true ra rb s schedule) := by
  induction schedule generalizing s with
  | nil => exact hinv
  | cons pick rest ih =>
    exact ih _ (Race.inv_step ra rb db e s pick hua hub hfree hA0 hA1 hB0 hB1 hhA hhB hinv)

/-- C19: two register requests with the same email, free at the start, run
concurrently against a datastore that enforces the declared uniqueness of
`email`, answers the requests, and with hashes that succeed.  For every
interleaving of their datastore requests after which both runs have ended,
exactly one run ended Registered and the other Rejected, and exactly one row,
with that email, was added to the users table: in no interleaving do both
insert an identity. -/
theorem concurrent_register_one_winner (ra rb : Crypto × Env × Credentials) (db : Datastore)
    (schedule : List Bool)
    (hsame : ra.2.2.username = rb.2.2.username)
    (hfree : ∀ x ∈ db.users, x.email ≠ ra.2.2.username)
    (hA0 : ra.2.1.fails 0 = false) (hA1 : ra.2.1.fails 1 = false)
    (hB0 : rb.2.1.fails 0 = false) (hB1 : rb.2.1.fails 1 = false)
    (hhA : (ra.1.hash ra.2.2.password).isSome = true)
    (hhB : (rb.1.hash rb.2.2.password).isSome = true)
    (hend : (Race.run true ra rb { db := db, first := .lookup, second := .lookup }
        schedule).first.ended ∧
      (Race.run true ra rb { db := db, first := .lookup, second := .lookup }
        schedule).second.ended) :
    (((Race.run true ra rb { db := db, first := .lookup, second := .lookup }
          schedule).first.registered ∧
        (Race.run true ra rb { db := db, first := .lookup, second := .lookup }
          schedule).second.rejected) ∨
      ((Race.run true ra rb { db := db, first := .lookup, second := .lookup }
          schedule).second.registered ∧
        (Race.run true ra rb { db := db, first := .lookup, second := .lookup }
          schedule).first.rejected)) ∧
    (¬ ((Race.run true ra rb { db := db, first := .lookup, second := .lookup }
          schedule).first.registered ∧
        (Race.run true ra rb { db := db, first := .lookup, second := .lookup }
          schedule).second.registered)) ∧
    ∃ row, row.email = ra.2.2.username ∧
      (Race.run true ra rb { db := db, first := .lookup, second := .lookup }
        schedule).db.users = db.users ++ [row] := by
  have hinv := Race.inv_run ra rb db ra.2.2.username schedule
    { db := db, first := .lookup, second := .lookup } rfl hsame.symm
    (usersByEmail_eq_nil db _ hfree) hA0 hA1 hB0 hB1 hhA hhB
    (Or.inl ⟨rfl, Or.inl rfl, Or.inl rfl⟩)
  generalize Race.run true ra rb { db := db, first := .lookup, second := .lookup }
    schedule = final at hinv hend
  obtain ⟨he1, he2⟩ := hend
  rcases hinv with ⟨_, hp1, _⟩ | ⟨row, hrow, husers, hcase⟩
  · exact (pending_not_ended _ _ hp1 he1).elim
  · have hexcl : ∀ r : RegisterRun, r.registered → r.rejected → False := by
      intro r hreg hrej
      obtain ⟨session, hs⟩ := hreg
      rw [hrej] at hs
      cases hs
    rcases hcase with ⟨hreg, hother⟩ | ⟨hreg, hother⟩
    · have hrej : final.second.rejected := by
        rcases hother with hp | hrej
        · exact (pending_not_ended _ _ hp he2).elim
        · exact hrej
      exact ⟨Or.inl ⟨hreg, hrej⟩, fun h => hexcl _ h.2 hrej, row, hrow, husers⟩
    · have hrej : final.first.rejected := by
        rcases hother with hp | hrej
        · exact (pending_not_ended _ _ hp he1).elim
        · exact hrej
      exact ⟨Or.inr ⟨hreg, hrej⟩, fun h => hexcl _ h.1 hrej, row, hrow, husers⟩

/-- C19 (witness): two requests for `frank@x.com` on `db0`, both lookups made
before either insert: the first run is registered, the second is refused by
the constraint. -/
theorem concurrent_register_one_winner_witness :
    (∀ x ∈ db0.users, x.email ≠ "frank@x.com") ∧
    (Race.run true (crypto0, env0, { username := "frank@x.com", password := "pw" })
        (crypto0, env2, { username := "frank@x.com", password := "pw2" })
        { db := db0, first := .lookup, second := .lookup }
        [true, false, true, false]).second = .finished (some .login) none ∧
    ∃ row, row.email = "frank@x.com" ∧
      (Race.run true (crypto0, env0, { username := "frank@x.com", password := "pw" })
        (crypto0, env2, { username := "frank@x.com", password := "pw2" })
        { db := db0, first := .lookup, second := .lookup }
        [true, false, true, false]).db.users = db0.users ++ [row] :=
  ⟨by decide, by decide,
   (concurrent_register_one_winner
      (crypto0, env0, { username := "frank@x.com", password := "pw" })
      (crypto0, env2, { username := "frank@x.com", password := "pw2" })
      db0 [true, false, true, false] rfl (by decide) rfl rfl rfl rfl rfl rfl
      ⟨⟨some .secrets, some (newUser env0 "frank@x.com" "$2b$10$fresh"), by decide⟩,
       ⟨some .login, none, by decide⟩⟩).2.2⟩

/-- Without the constraint the same interleaving lets both runs store a row:
the lookup of the handler alone does not keep the email unique. -/
theorem unconstrained_register_stores_twice :
    (Race.run false (crypto0, env0, { username := "frank@x.com", password := "pw" })
        (crypto0, env2, { username := "frank@x.com", password := "pw2" })
        { db := db0, first := .lookup, second := .lookup }
        [true, false, true, false]).db.users =
      db0.users ++ [newUser env0 "frank@x.com" "$2b$10$fresh",
                    newUser env2 "frank@x.com" "$2b$10$fresh"] := by
  decide

end ProjectTracker
